import Mathlib

/-!
Shallow embedding of the Skill-Sharing database layer
(supabase/migrations/20251123161127_...sql) and of the client-side
tutorial-creation form (CreateTutorial component), together with theorems
settling the behavioural claims about counters, uniqueness, cascade
deletion, row-level-security policies, the signup trigger, the
updated_at trigger and the client-side validation bounds.

Identifiers (UUID columns) are modelled as Nat, timestamps as Nat,
SQL INTEGER counters as Int (so that the GREATEST clamp is meaningful),
and nullable TEXT columns as Option String.
-/

namespace SkillSharing

/-- Closed enumeration public.tutorial_category from the migration. -/
inductive TutorialCategory where
  | programming | design | music | art | cooking
  | photography | business | fitness | languages | other
deriving DecidableEq, Repr, BEq

/-- Closed enumeration public.difficulty_level from the migration. -/
inductive DifficultyLevel where
  | beginner | intermediate | advanced
deriving DecidableEq, Repr, BEq

/-- Row of public.profiles. -/
structure Profile where
  id : Nat
  full_name : String
  bio : Option String
  avatar_url : Option String
  created_at : Nat
  updated_at : Nat
deriving DecidableEq, Repr, BEq

/-- Row of public.tutorials.  Counters are SQL INTEGER, hence Int. -/
structure Tutorial where
  id : Nat
  user_id : Nat
  title : String
  description : String
  category : TutorialCategory
  difficulty : DifficultyLevel
  thumbnail_url : Option String
  video_url : Option String
  likes_count : Int
  comments_count : Int
  enrollments_count : Int
  created_at : Nat
  updated_at : Nat
deriving DecidableEq, Repr, BEq

/-- Row of public.tutorial_likes. -/
structure TutorialLike where
  id : Nat
  tutorial_id : Nat
  user_id : Nat
  created_at : Nat
deriving DecidableEq, Repr, BEq

/-- Row of public.tutorial_comments. -/
structure TutorialComment where
  id : Nat
  tutorial_id : Nat
  user_id : Nat
  content : String
  created_at : Nat
deriving DecidableEq, Repr, BEq

/-- Row of public.enrollments. -/
structure Enrollment where
  id : Nat
  tutorial_id : Nat
  user_id : Nat
  enrolled_at : Nat
deriving DecidableEq, Repr, BEq

/-- The database state: the five tables created by the migration. -/
structure DB where
  profiles : List Profile
  tutorials : List Tutorial
  tutorial_likes : List TutorialLike
  tutorial_comments : List TutorialComment
  enrollments : List Enrollment
deriving DecidableEq, Repr, BEq

/-- The empty database, the state right after the migration ran. -/
def emptyDB : DB :=
  { profiles := [], tutorials := [], tutorial_likes := [],
    tutorial_comments := [], enrollments := [] }

/-- TG_OP of a row trigger: the three counter triggers fire AFTER INSERT
OR DELETE, so only these two operations reach them. -/
inductive TrigOp where
  | insert | delete
deriving DecidableEq, Repr, BEq

/-- The counter update each of the three trigger functions performs,
parametrized only by the operation: on INSERT the counter becomes
count + 1, on DELETE it becomes GREATEST(count - 1, 0). -/
def counterStep (op : TrigOp) (c : Int) : Int :=
  match op with
  | .insert => c + 1
  | .delete => max (c - 1) 0

/-- Shared shape of the three counter trigger functions: run the
UPDATE public.tutorials SET field = ... WHERE id = tid statement,
parametrized by the getter and setter of the counter field. -/
def counterTrigger (get : Tutorial → Int) (set : Tutorial → Int → Tutorial)
    (op : TrigOp) (tid : Nat) (ts : List Tutorial) : List Tutorial :=
  ts.map (fun t => if t.id == tid then set t (counterStep op (get t)) else t)

/-- public.update_tutorial_likes_count, fired AFTER INSERT OR DELETE on
public.tutorial_likes with tid = NEW.tutorial_id / OLD.tutorial_id. -/
def update_tutorial_likes_count : TrigOp → Nat → List Tutorial → List Tutorial :=
  counterTrigger (fun t => t.likes_count) (fun t n => { t with likes_count := n })

/-- public.update_tutorial_comments_count. -/
def update_tutorial_comments_count : TrigOp → Nat → List Tutorial → List Tutorial :=
  counterTrigger (fun t => t.comments_count) (fun t n => { t with comments_count := n })

/-- public.update_tutorial_enrollments_count. -/
def update_tutorial_enrollments_count : TrigOp → Nat → List Tutorial → List Tutorial :=
  counterTrigger (fun t => t.enrollments_count) (fun t n => { t with enrollments_count := n })

/-- public.handle_new_user: the profile row the signup trigger inserts.
full_name is COALESCE(NEW.raw_user_meta_data : full_name, "New User");
bio and avatar_url are NULL; the timestamp columns take DEFAULT NOW(). -/
def handle_new_user (now : Nat) (id : Nat) (meta_full_name : Option String) : Profile :=
  { id := id
    full_name := meta_full_name.getD "New User"
    bio := none
    avatar_url := none
    created_at := now
    updated_at := now }

/-- Creation of a new identity-provider account (INSERT on auth.users):
the on_auth_user_created trigger inserts one profiles row via
handle_new_user.  The profiles primary key makes the insert fail when a
profile with this id already exists, aborting the whole transaction. -/
def signup (st : DB) (now : Nat) (id : Nat) (meta_full_name : Option String) :
    Except String DB :=
  if st.profiles.any (fun p => p.id == id) then
    .error "duplicate key value violates profiles_pkey"
  else
    .ok { st with profiles := st.profiles ++ [handle_new_user now id meta_full_name] }

/-- Client INSERT into public.tutorials (CreateTutorial form): the client
supplies no counter values, so the three counters take their DEFAULT 0;
primary key and the user_id foreign key are checked. -/
def insertTutorial (st : DB) (now : Nat) (id user_id : Nat)
    (title description : String) (category : TutorialCategory)
    (difficulty : DifficultyLevel) (thumbnail_url video_url : Option String) :
    Except String DB :=
  if st.tutorials.any (fun t => t.id == id) then
    .error "duplicate key value violates tutorials_pkey"
  else if !(st.profiles.any (fun p => p.id == user_id)) then
    .error "foreign key violation: tutorials_user_id_fkey"
  else
    .ok { st with tutorials := st.tutorials ++
      [{ id := id, user_id := user_id, title := title, description := description
         category := category, difficulty := difficulty
         thumbnail_url := thumbnail_url, video_url := video_url
         likes_count := 0, comments_count := 0, enrollments_count := 0
         created_at := now, updated_at := now }] }

/-- DELETE FROM public.tutorials WHERE id = tid.  The three child tables
reference tutorials(id) ON DELETE CASCADE, so all child rows of a deleted
tutorial are removed in the same statement.  The cascaded child deletions
fire the counter triggers, whose UPDATE targets the tutorial row that was
just deleted and therefore matches no remaining row. -/
def deleteTutorial (st : DB) (tid : Nat) : DB :=
  if st.tutorials.any (fun t => t.id == tid) then
    let deletedLikes := st.tutorial_likes.filter (fun l => l.tutorial_id == tid)
    let deletedComments := st.tutorial_comments.filter (fun c => c.tutorial_id == tid)
    let deletedEnrollments := st.enrollments.filter (fun e => e.tutorial_id == tid)
    let ts0 := st.tutorials.filter (fun t => !(t.id == tid))
    let ts1 := deletedLikes.foldl
      (fun ts l => update_tutorial_likes_count .delete l.tutorial_id ts) ts0
    let ts2 := deletedComments.foldl
      (fun ts c => update_tutorial_comments_count .delete c.tutorial_id ts) ts1
    let ts3 := deletedEnrollments.foldl
      (fun ts e => update_tutorial_enrollments_count .delete e.tutorial_id ts) ts2
    { st with
      tutorials := ts3
      tutorial_likes := st.tutorial_likes.filter (fun l => !(l.tutorial_id == tid))
      tutorial_comments := st.tutorial_comments.filter (fun c => !(c.tutorial_id == tid))
      enrollments := st.enrollments.filter (fun e => !(e.tutorial_id == tid)) }
  else st

/-- INSERT into public.tutorial_likes: primary key, the
UNIQUE(tutorial_id, user_id) constraint and both foreign keys are
checked; on success the AFTER INSERT trigger increments the likes
counter of the tutorial NEW.tutorial_id. -/
def insertLike (st : DB) (r : TutorialLike) : Except String DB :=
  if st.tutorial_likes.any (fun l => l.id == r.id) then
    .error "duplicate key value violates tutorial_likes_pkey"
  else if st.tutorial_likes.any
      (fun l => l.tutorial_id == r.tutorial_id && l.user_id == r.user_id) then
    .error "duplicate key value violates tutorial_likes_tutorial_id_user_id_key"
  else if !(st.tutorials.any (fun t => t.id == r.tutorial_id)) then
    .error "foreign key violation: tutorial_likes_tutorial_id_fkey"
  else if !(st.profiles.any (fun p => p.id == r.user_id)) then
    .error "foreign key violation: tutorial_likes_user_id_fkey"
  else
    .ok { st with
      tutorial_likes := st.tutorial_likes ++ [r]
      tutorials := update_tutorial_likes_count .insert r.tutorial_id st.tutorials }

/-- DELETE FROM public.tutorial_likes WHERE tutorial_id = tid AND
user_id = uid (the unlike call of the client).  The AFTER DELETE trigger
fires once per deleted row with OLD.tutorial_id. -/
def deleteLike (st : DB) (tid uid : Nat) : DB :=
  let deleted := st.tutorial_likes.filter
    (fun l => l.tutorial_id == tid && l.user_id == uid)
  { st with
    tutorial_likes := st.tutorial_likes.filter
      (fun l => !(l.tutorial_id == tid && l.user_id == uid))
    tutorials := deleted.foldl
      (fun ts l => update_tutorial_likes_count .delete l.tutorial_id ts) st.tutorials }

/-- INSERT into public.tutorial_comments: primary key and both foreign
keys are checked (no uniqueness constraint on comments); on success the
AFTER INSERT trigger increments the comments counter. -/
def insertComment (st : DB) (r : TutorialComment) : Except String DB :=
  if st.tutorial_comments.any (fun c => c.id == r.id) then
    .error "duplicate key value violates tutorial_comments_pkey"
  else if !(st.tutorials.any (fun t => t.id == r.tutorial_id)) then
    .error "foreign key violation: tutorial_comments_tutorial_id_fkey"
  else if !(st.profiles.any (fun p => p.id == r.user_id)) then
    .error "foreign key violation: tutorial_comments_user_id_fkey"
  else
    .ok { st with
      tutorial_comments := st.tutorial_comments ++ [r]
      tutorials := update_tutorial_comments_count .insert r.tutorial_id st.tutorials }

/-- DELETE FROM public.tutorial_comments WHERE id = cid.  The AFTER
DELETE trigger fires once per deleted row with OLD.tutorial_id. -/
def deleteComment (st : DB) (cid : Nat) : DB :=
  let deleted := st.tutorial_comments.filter (fun c => c.id == cid)
  { st with
    tutorial_comments := st.tutorial_comments.filter (fun c => !(c.id == cid))
    tutorials := deleted.foldl
      (fun ts c => update_tutorial_comments_count .delete c.tutorial_id ts) st.tutorials }

/-- INSERT into public.enrollments: primary key, the
UNIQUE(tutorial_id, user_id) constraint and both foreign keys are
checked; on success the AFTER INSERT trigger increments the enrollments
counter. -/
def insertEnrollment (st : DB) (r : Enrollment) : Except String DB :=
  if st.enrollments.any (fun e => e.id == r.id) then
    .error "duplicate key value violates enrollments_pkey"
  else if st.enrollments.any
      (fun e => e.tutorial_id == r.tutorial_id && e.user_id == r.user_id) then
    .error "duplicate key value violates enrollments_tutorial_id_user_id_key"
  else if !(st.tutorials.any (fun t => t.id == r.tutorial_id)) then
    .error "foreign key violation: enrollments_tutorial_id_fkey"
  else if !(st.profiles.any (fun p => p.id == r.user_id)) then
    .error "foreign key violation: enrollments_user_id_fkey"
  else
    .ok { st with
      enrollments := st.enrollments ++ [r]
      tutorials := update_tutorial_enrollments_count .insert r.tutorial_id st.tutorials }

/-- DELETE FROM public.enrollments WHERE tutorial_id = tid AND
user_id = uid (the unenroll call of the client). -/
def deleteEnrollment (st : DB) (tid uid : Nat) : DB :=
  let deleted := st.enrollments.filter
    (fun e => e.tutorial_id == tid && e.user_id == uid)
  { st with
    enrollments := st.enrollments.filter
      (fun e => !(e.tutorial_id == tid && e.user_id == uid))
    tutorials := deleted.foldl
      (fun ts e => update_tutorial_enrollments_count .delete e.tutorial_id ts) st.tutorials }

/-- The write events of the database layer the counter claims quantify
over: account creation, tutorial creation and deletion, and insertion or
deletion of like, comment and enrollment rows. -/
inductive Event where
  | signup (now id : Nat) (meta_full_name : Option String)
  | newTutorial (now id user_id : Nat) (title description : String)
      (category : TutorialCategory) (difficulty : DifficultyLevel)
      (thumbnail_url video_url : Option String)
  | dropTutorial (tid : Nat)
  | likeRow (r : TutorialLike)
  | unlike (tid uid : Nat)
  | commentRow (r : TutorialComment)
  | dropComment (cid : Nat)
  | enrollRow (r : Enrollment)
  | unenroll (tid uid : Nat)
deriving Repr

/-- A failed (rejected) statement aborts its transaction and leaves the
database unchanged. -/
def okOr (st : DB) (r : Except String DB) : DB :=
  match r with
  | .ok st2 => st2
  | .error _ => st

/-- Apply one event to the database. -/
def applyEvent (st : DB) (e : Event) : DB :=
  match e with
  | .signup now id m => okOr st (signup st now id m)
  | .newTutorial now id uid ti de ca di th vi =>
      okOr st (insertTutorial st now id uid ti de ca di th vi)
  | .dropTutorial tid => deleteTutorial st tid
  | .likeRow r => okOr st (insertLike st r)
  | .unlike tid uid => deleteLike st tid uid
  | .commentRow r => okOr st (insertComment st r)
  | .dropComment cid => deleteComment st cid
  | .enrollRow r => okOr st (insertEnrollment st r)
  | .unenroll tid uid => deleteEnrollment st tid uid

/-- Apply a sequence of events to a state. -/
def applyEvents (st : DB) (es : List Event) : DB :=
  es.foldl applyEvent st

/-- A state reachable by the defined operations from the fresh database. -/
def runEvents (es : List Event) : DB :=
  applyEvents emptyDB es

/-- Number of live tutorial_likes rows referencing tutorial tid. -/
def countLikes (ls : List TutorialLike) (tid : Nat) : Nat :=
  (ls.filter (fun l => l.tutorial_id == tid)).length

/-- Number of live tutorial_comments rows referencing tutorial tid. -/
def countComments (cs : List TutorialComment) (tid : Nat) : Nat :=
  (cs.filter (fun c => c.tutorial_id == tid)).length

/-- Number of live enrollments rows referencing tutorial tid. -/
def countEnrollments (es : List Enrollment) (tid : Nat) : Nat :=
  (es.filter (fun e => e.tutorial_id == tid)).length

/-- Executable check: every tutorial's three counters equal the number
of live child rows referencing it. -/
def countersConsistent (st : DB) : Bool :=
  st.tutorials.all (fun t =>
    t.likes_count == (countLikes st.tutorial_likes t.id : Int) &&
    t.comments_count == (countComments st.tutorial_comments t.id : Int) &&
    t.enrollments_count == (countEnrollments st.enrollments t.id : Int))

/-- Executable check: every counter of every tutorial is nonnegative. -/
def countersNonneg (st : DB) : Bool :=
  st.tutorials.all (fun t =>
    (0 : Int) ≤ t.likes_count && (0 : Int) ≤ t.comments_count &&
    (0 : Int) ≤ t.enrollments_count)

/-- Executable check: no child row in any of the three child tables
references tutorial tid. -/
def noChildRows (st : DB) (tid : Nat) : Bool :=
  st.tutorial_likes.all (fun l => !(l.tutorial_id == tid)) &&
  st.tutorial_comments.all (fun c => !(c.tutorial_id == tid)) &&
  st.enrollments.all (fun e => !(e.tutorial_id == tid))

/-! ### Generic list lemmas -/

theorem length_filter_append_single {α : Type} (xs : List α) (r : α) (p : α → Bool) :
    ((xs ++ [r]).filter p).length =
      (xs.filter p).length + (if p r then 1 else 0) := by
  rw [List.filter_append]
  cases h : p r <;> simp [List.filter_cons, h]

theorem length_filter_filter_le {α : Type} (xs : List α) (p q : α → Bool) :
    ((xs.filter q).filter p).length ≤ (xs.filter p).length :=
  (List.Sublist.filter p (List.filter_sublist xs)).length_le

theorem length_filter_split {α : Type} (xs : List α) (p q : α → Bool) :
    (xs.filter p).length =
      ((xs.filter q).filter p).length +
        ((xs.filter (fun a => !q a)).filter p).length := by
  induction xs with
  | nil => rfl
  | cons a l ih =>
    by_cases hq : q a <;> by_cases hp : p a <;>
      simp [List.filter_cons, hq, hp, ih] <;> omega

theorem map_id_of_mem {α : Type} (xs : List α) (f : α → α)
    (h : ∀ x ∈ xs, f x = x) : xs.map f = xs := by
  induction xs with
  | nil => rfl
  | cons a l ih =>
    simp only [List.map_cons, h a (List.mem_cons_self a l),
      ih fun x hx => h x (List.mem_cons_of_mem a hx)]

/-! ### Facts about the shared counter trigger shape -/

theorem mem_counterTrigger {get : Tutorial → Int} {set : Tutorial → Int → Tutorial}
    {op : TrigOp} {tid : Nat} {ts : List Tutorial} {t2 : Tutorial} :
    t2 ∈ counterTrigger get set op tid ts ↔
      ∃ t ∈ ts,
        t2 = if t.id == tid then set t (counterStep op (get t)) else t := by
  simp only [counterTrigger, List.mem_map, eq_comm]

theorem counterTrigger_eq_self {get : Tutorial → Int} {set : Tutorial → Int → Tutorial}
    {op : TrigOp} {tid : Nat} {ts : List Tutorial}
    (h : ∀ t ∈ ts, (t.id == tid) = false) :
    counterTrigger get set op tid ts = ts :=
  map_id_of_mem _ _ (fun t ht => by simp [h t ht])

theorem any_id_counterTrigger {get : Tutorial → Int} {set : Tutorial → Int → Tutorial}
    (hset : ∀ t n, (set t n).id = t.id)
    (op : TrigOp) (tid x : Nat) (ts : List Tutorial) :
    ((counterTrigger get set op tid ts).any (fun t => t.id == x)) =
      ts.any (fun t => t.id == x) := by
  induction ts with
  | nil => rfl
  | cons a l ih =>
    have hcons : counterTrigger get set op tid (a :: l) =
        (if a.id == tid then set a (counterStep op (get a)) else a) ::
          counterTrigger get set op tid l := rfl
    rw [hcons, List.any_cons, List.any_cons, ih]
    congr 1
    split
    · rw [hset]
    · rfl

theorem mem_update_likes {op : TrigOp} {tid : Nat} {ts : List Tutorial} {t2 : Tutorial} :
    t2 ∈ update_tutorial_likes_count op tid ts ↔
      ∃ t ∈ ts, t2 = if t.id == tid then
        { t with likes_count := counterStep op t.likes_count } else t :=
  mem_counterTrigger

theorem mem_update_comments {op : TrigOp} {tid : Nat} {ts : List Tutorial} {t2 : Tutorial} :
    t2 ∈ update_tutorial_comments_count op tid ts ↔
      ∃ t ∈ ts, t2 = if t.id == tid then
        { t with comments_count := counterStep op t.comments_count } else t :=
  mem_counterTrigger

theorem mem_update_enrollments {op : TrigOp} {tid : Nat} {ts : List Tutorial} {t2 : Tutorial} :
    t2 ∈ update_tutorial_enrollments_count op tid ts ↔
      ∃ t ∈ ts, t2 = if t.id == tid then
        { t with enrollments_count := counterStep op t.enrollments_count } else t :=
  mem_counterTrigger

theorem any_id_update_likes (op : TrigOp) (tid x : Nat) (ts : List Tutorial) :
    ((update_tutorial_likes_count op tid ts).any (fun t => t.id == x)) =
      ts.any (fun t => t.id == x) :=
  @any_id_counterTrigger (fun t => t.likes_count)
    (fun t n => { t with likes_count := n }) (fun _ _ => rfl) op tid x ts

theorem any_id_update_comments (op : TrigOp) (tid x : Nat) (ts : List Tutorial) :
    ((update_tutorial_comments_count op tid ts).any (fun t => t.id == x)) =
      ts.any (fun t => t.id == x) :=
  @any_id_counterTrigger (fun t => t.comments_count)
    (fun t n => { t with comments_count := n }) (fun _ _ => rfl) op tid x ts

theorem any_id_update_enrollments (op : TrigOp) (tid x : Nat) (ts : List Tutorial) :
    ((update_tutorial_enrollments_count op tid ts).any (fun t => t.id == x)) =
      ts.any (fun t => t.id == x) :=
  @any_id_counterTrigger (fun t => t.enrollments_count)
    (fun t n => { t with enrollments_count := n }) (fun _ _ => rfl) op tid x ts

theorem update_likes_eq_self {op : TrigOp} {tid : Nat} {ts : List Tutorial}
    (h : ∀ t ∈ ts, (t.id == tid) = false) :
    update_tutorial_likes_count op tid ts = ts :=
  counterTrigger_eq_self h

theorem update_comments_eq_self {op : TrigOp} {tid : Nat} {ts : List Tutorial}
    (h : ∀ t ∈ ts, (t.id == tid) = false) :
    update_tutorial_comments_count op tid ts = ts :=
  counterTrigger_eq_self h

theorem update_enrollments_eq_self {op : TrigOp} {tid : Nat} {ts : List Tutorial}
    (h : ∀ t ∈ ts, (t.id == tid) = false) :
    update_tutorial_enrollments_count op tid ts = ts :=
  counterTrigger_eq_self h

/-! ### The database invariant -/

/-- The invariant of reachable database states: every counter equals the
number of live child rows referencing its tutorial, the two
UNIQUE(tutorial_id, user_id) constraints and the comments primary key
hold, and every child row references an existing tutorial. -/
structure Inv (st : DB) : Prop where
  likes_eq : ∀ t ∈ st.tutorials,
    t.likes_count = (countLikes st.tutorial_likes t.id : Int)
  comments_eq : ∀ t ∈ st.tutorials,
    t.comments_count = (countComments st.tutorial_comments t.id : Int)
  enrollments_eq : ∀ t ∈ st.tutorials,
    t.enrollments_count = (countEnrollments st.enrollments t.id : Int)
  likes_unique : ∀ tid uid,
    (st.tutorial_likes.filter
      (fun l => l.tutorial_id == tid && l.user_id == uid)).length ≤ 1
  enrollments_unique : ∀ tid uid,
    (st.enrollments.filter
      (fun e => e.tutorial_id == tid && e.user_id == uid)).length ≤ 1
  comments_pk : ∀ cid,
    (st.tutorial_comments.filter (fun c => c.id == cid)).length ≤ 1
  likes_fk : ∀ l ∈ st.tutorial_likes,
    st.tutorials.any (fun t => t.id == l.tutorial_id) = true
  comments_fk : ∀ c ∈ st.tutorial_comments,
    st.tutorials.any (fun t => t.id == c.tutorial_id) = true
  enrollments_fk : ∀ e ∈ st.enrollments,
    st.tutorials.any (fun t => t.id == e.tutorial_id) = true

theorem inv_emptyDB : Inv emptyDB := by
  constructor <;> simp [emptyDB]

theorem countLikes_append (ls : List TutorialLike) (r : TutorialLike) (tid : Nat) :
    countLikes (ls ++ [r]) tid =
      countLikes ls tid + (if r.tutorial_id == tid then 1 else 0) :=
  length_filter_append_single ls r _

theorem countComments_append (cs : List TutorialComment) (r : TutorialComment) (tid : Nat) :
    countComments (cs ++ [r]) tid =
      countComments cs tid + (if r.tutorial_id == tid then 1 else 0) :=
  length_filter_append_single cs r _

theorem countEnrollments_append (es : List Enrollment) (r : Enrollment) (tid : Nat) :
    countEnrollments (es ++ [r]) tid =
      countEnrollments es tid + (if r.tutorial_id == tid then 1 else 0) :=
  length_filter_append_single es r _

/-! ### Success shapes of the insert statements -/

theorem insertLike_ok {st : DB} {r : TutorialLike} {st2 : DB}
    (h : insertLike st r = .ok st2) :
    st2 = { st with
      tutorial_likes := st.tutorial_likes ++ [r]
      tutorials := update_tutorial_likes_count .insert r.tutorial_id st.tutorials } ∧
    (st.tutorial_likes.any
      (fun l => l.tutorial_id == r.tutorial_id && l.user_id == r.user_id)) = false ∧
    (st.tutorials.any (fun t => t.id == r.tutorial_id)) = true := by
  rw [insertLike] at h
  split at h
  · exact absurd h (by simp)
  split at h
  next hu => exact absurd h (by simp)
  next hu =>
    split at h
    next hfk => exact absurd h (by simp)
    next hfk =>
      split at h
      · exact absurd h (by simp)
      · simp only [Except.ok.injEq] at h
        exact ⟨h.symm, by simpa using hu, by simpa using hfk⟩

theorem insertComment_ok {st : DB} {r : TutorialComment} {st2 : DB}
    (h : insertComment st r = .ok st2) :
    st2 = { st with
      tutorial_comments := st.tutorial_comments ++ [r]
      tutorials := update_tutorial_comments_count .insert r.tutorial_id st.tutorials } ∧
    (st.tutorial_comments.any (fun c => c.id == r.id)) = false ∧
    (st.tutorials.any (fun t => t.id == r.tutorial_id)) = true := by
  rw [insertComment] at h
  split at h
  next hpk => exact absurd h (by simp)
  next hpk =>
    split at h
    next hfk => exact absurd h (by simp)
    next hfk =>
      split at h
      · exact absurd h (by simp)
      · simp only [Except.ok.injEq] at h
        exact ⟨h.symm, by simpa using hpk, by simpa using hfk⟩

theorem insertEnrollment_ok {st : DB} {r : Enrollment} {st2 : DB}
    (h : insertEnrollment st r = .ok st2) :
    st2 = { st with
      enrollments := st.enrollments ++ [r]
      tutorials := update_tutorial_enrollments_count .insert r.tutorial_id st.tutorials } ∧
    (st.enrollments.any
      (fun e => e.tutorial_id == r.tutorial_id && e.user_id == r.user_id)) = false ∧
    (st.tutorials.any (fun t => t.id == r.tutorial_id)) = true := by
  rw [insertEnrollment] at h
  split at h
  · exact absurd h (by simp)
  split at h
  next hu => exact absurd h (by simp)
  next hu =>
    split at h
    next hfk => exact absurd h (by simp)
    next hfk =>
      split at h
      · exact absurd h (by simp)
      · simp only [Except.ok.injEq] at h
        exact ⟨h.symm, by simpa using hu, by simpa using hfk⟩

theorem insertTutorial_ok {st : DB} {now id user_id : Nat}
    {title description : String} {category : TutorialCategory}
    {difficulty : DifficultyLevel} {thumbnail_url video_url : Option String} {st2 : DB}
    (h : insertTutorial st now id user_id title description category difficulty
      thumbnail_url video_url = .ok st2) :
    st2 = { st with tutorials := st.tutorials ++
      [{ id := id, user_id := user_id, title := title, description := description
         category := category, difficulty := difficulty
         thumbnail_url := thumbnail_url, video_url := video_url
         likes_count := 0, comments_count := 0, enrollments_count := 0
         created_at := now, updated_at := now }] } ∧
    (st.tutorials.any (fun t => t.id == id)) = false := by
  rw [insertTutorial] at h
  split at h
  next hpk => exact absurd h (by simp)
  next hpk =>
    split at h
    · exact absurd h (by simp)
    · simp only [Except.ok.injEq] at h
      exact ⟨h.symm, by simpa using hpk⟩

theorem signup_ok {st : DB} {now id : Nat} {m : Option String} {st2 : DB}
    (h : signup st now id m = .ok st2) :
    st2 = { st with profiles := st.profiles ++ [handle_new_user now id m] } ∧
    (st.profiles.any (fun p => p.id == id)) = false := by
  rw [signup] at h
  split at h
  next hpk => exact absurd h (by simp)
  next hpk =>
    simp only [Except.ok.injEq] at h
    exact ⟨h.symm, by simpa using hpk⟩

/-! ### Invariant preservation, insert operations -/

theorem inv_signup {st st2 : DB} {now id : Nat} {m : Option String}
    (hI : Inv st) (h : signup st now id m = .ok st2) : Inv st2 := by
  obtain ⟨hst, -⟩ := signup_ok h
  subst hst
  exact ⟨hI.likes_eq, hI.comments_eq, hI.enrollments_eq, hI.likes_unique,
    hI.enrollments_unique, hI.comments_pk, hI.likes_fk, hI.comments_fk,
    hI.enrollments_fk⟩

theorem inv_insertLike {st st2 : DB} {r : TutorialLike}
    (hI : Inv st) (h : insertLike st r = .ok st2) : Inv st2 := by
  obtain ⟨hst, hu, hfk⟩ := insertLike_ok h
  subst hst
  have hnomatch : ∀ l ∈ st.tutorial_likes,
      ¬ (l.tutorial_id == r.tutorial_id && l.user_id == r.user_id) = true := by
    intro l hl hc
    have hcontra : (st.tutorial_likes.any
        (fun l => l.tutorial_id == r.tutorial_id && l.user_id == r.user_id)) = true :=
      List.any_eq_true.mpr ⟨l, hl, hc⟩
    rw [hu] at hcontra
    cases hcontra
  constructor
  · -- likes counter tracks the appended row
    intro t2 ht2
    obtain ⟨t, ht, rfl⟩ := mem_update_likes.mp ht2
    show _ = (countLikes (st.tutorial_likes ++ [r]) _ : Int)
    by_cases hid : (t.id == r.tutorial_id) = true
    · rw [if_pos hid]
      have hid2 : t.id = r.tutorial_id := by simpa using hid
      show t.likes_count + 1 = (countLikes (st.tutorial_likes ++ [r]) t.id : Int)
      rw [countLikes_append, hI.likes_eq t ht,
        if_pos (show (r.tutorial_id == t.id) = true by simp [hid2])]
      push_cast
      ring
    · rw [if_neg hid]
      have hid2 : (r.tutorial_id == t.id) = false := by
        simp only [beq_eq_false_iff_ne, ne_eq]
        intro hh
        exact hid (by simp [hh])
      rw [countLikes_append, hid2]
      simpa using hI.likes_eq t ht
  · -- comments counter untouched
    intro t2 ht2
    obtain ⟨t, ht, rfl⟩ := mem_update_likes.mp ht2
    by_cases hid : (t.id == r.tutorial_id) = true
    · rw [if_pos hid]; exact hI.comments_eq t ht
    · rw [if_neg hid]; exact hI.comments_eq t ht
  · -- enrollments counter untouched
    intro t2 ht2
    obtain ⟨t, ht, rfl⟩ := mem_update_likes.mp ht2
    by_cases hid : (t.id == r.tutorial_id) = true
    · rw [if_pos hid]; exact hI.enrollments_eq t ht
    · rw [if_neg hid]; exact hI.enrollments_eq t ht
  · -- the unique pair constraint still holds on the appended table
    intro tid uid
    show ((st.tutorial_likes ++ [r]).filter
      (fun l => l.tutorial_id == tid && l.user_id == uid)).length ≤ 1
    rw [length_filter_append_single]
    by_cases hp : (r.tutorial_id == tid && r.user_id == uid) = true
    · have h1 : tid = r.tutorial_id ∧ uid = r.user_id := by
        simp only [Bool.and_eq_true, beq_iff_eq] at hp
        exact ⟨hp.1.symm, hp.2.symm⟩
      obtain ⟨rfl, rfl⟩ := h1
      rw [if_pos hp, List.filter_eq_nil_iff.mpr hnomatch]
      simp
    · rw [if_neg hp]
      simpa using hI.likes_unique tid uid
  · exact hI.enrollments_unique
  · exact hI.comments_pk
  · -- foreign keys of the like rows
    intro l hl
    show ((update_tutorial_likes_count .insert r.tutorial_id st.tutorials).any
      (fun t => t.id == l.tutorial_id)) = true
    rw [any_id_update_likes]
    rcases List.mem_append.mp hl with h2 | h2
    · exact hI.likes_fk l h2
    · have : l = r := by simpa using h2
      subst this
      exact hfk
  · intro c hc
    show ((update_tutorial_likes_count .insert r.tutorial_id st.tutorials).any
      (fun t => t.id == c.tutorial_id)) = true
    rw [any_id_update_likes]
    exact hI.comments_fk c hc
  · intro e he
    show ((update_tutorial_likes_count .insert r.tutorial_id st.tutorials).any
      (fun t => t.id == e.tutorial_id)) = true
    rw [any_id_update_likes]
    exact hI.enrollments_fk e he

theorem inv_insertComment {st st2 : DB} {r : TutorialComment}
    (hI : Inv st) (h : insertComment st r = .ok st2) : Inv st2 := by
  obtain ⟨hst, hpk, hfk⟩ := insertComment_ok h
  subst hst
  have hnomatch : ∀ c ∈ st.tutorial_comments, ¬ (c.id == r.id) = true := by
    intro c hc hcontra
    have hx : (st.tutorial_comments.any (fun c => c.id == r.id)) = true :=
      List.any_eq_true.mpr ⟨c, hc, hcontra⟩
    rw [hpk] at hx
    cases hx
  constructor
  · -- likes counter untouched
    intro t2 ht2
    obtain ⟨t, ht, rfl⟩ := mem_update_comments.mp ht2
    by_cases hid : (t.id == r.tutorial_id) = true
    · rw [if_pos hid]; exact hI.likes_eq t ht
    · rw [if_neg hid]; exact hI.likes_eq t ht
  · -- comments counter tracks the appended row
    intro t2 ht2
    obtain ⟨t, ht, rfl⟩ := mem_update_comments.mp ht2
    show _ = (countComments (st.tutorial_comments ++ [r]) _ : Int)
    by_cases hid : (t.id == r.tutorial_id) = true
    · rw [if_pos hid]
      have hid2 : t.id = r.tutorial_id := by simpa using hid
      show t.comments_count + 1 = (countComments (st.tutorial_comments ++ [r]) t.id : Int)
      rw [countComments_append, hI.comments_eq t ht,
        if_pos (show (r.tutorial_id == t.id) = true by simp [hid2])]
      push_cast
      ring
    · rw [if_neg hid]
      have hid2 : (r.tutorial_id == t.id) = false := by
        simp only [beq_eq_false_iff_ne, ne_eq]
        intro hh
        exact hid (by simp [hh])
      rw [countComments_append, hid2]
      simpa using hI.comments_eq t ht
  · -- enrollments counter untouched
    intro t2 ht2
    obtain ⟨t, ht, rfl⟩ := mem_update_comments.mp ht2
    by_cases hid : (t.id == r.tutorial_id) = true
    · rw [if_pos hid]; exact hI.enrollments_eq t ht
    · rw [if_neg hid]; exact hI.enrollments_eq t ht
  · exact hI.likes_unique
  · exact hI.enrollments_unique
  · -- the comments primary key still holds on the appended table
    intro cid
    show ((st.tutorial_comments ++ [r]).filter (fun c => c.id == cid)).length ≤ 1
    rw [length_filter_append_single]
    by_cases hp : (r.id == cid) = true
    · have h1 : cid = r.id := (beq_iff_eq.mp hp).symm
      subst h1
      rw [if_pos hp, List.filter_eq_nil_iff.mpr hnomatch]
      simp
    · rw [if_neg hp]
      simpa using hI.comments_pk cid
  · intro l hl
    show ((update_tutorial_comments_count .insert r.tutorial_id st.tutorials).any
      (fun t => t.id == l.tutorial_id)) = true
    rw [any_id_update_comments]
    exact hI.likes_fk l hl
  · intro c hc
    show ((update_tutorial_comments_count .insert r.tutorial_id st.tutorials).any
      (fun t => t.id == c.tutorial_id)) = true
    rw [any_id_update_comments]
    rcases List.mem_append.mp hc with h2 | h2
    · exact hI.comments_fk c h2
    · have : c = r := by simpa using h2
      subst this
      exact hfk
  · intro e he
    show ((update_tutorial_comments_count .insert r.tutorial_id st.tutorials).any
      (fun t => t.id == e.tutorial_id)) = true
    rw [any_id_update_comments]
    exact hI.enrollments_fk e he

theorem inv_insertEnrollment {st st2 : DB} {r : Enrollment}
    (hI : Inv st) (h : insertEnrollment st r = .ok st2) : Inv st2 := by
  obtain ⟨hst, hu, hfk⟩ := insertEnrollment_ok h
  subst hst
  have hnomatch : ∀ e ∈ st.enrollments,
      ¬ (e.tutorial_id == r.tutorial_id && e.user_id == r.user_id) = true := by
    intro e he hcontra
    have hx : (st.enrollments.any
        (fun e => e.tutorial_id == r.tutorial_id && e.user_id == r.user_id)) = true :=
      List.any_eq_true.mpr ⟨e, he, hcontra⟩
    rw [hu] at hx
    cases hx
  constructor
  · -- likes counter untouched
    intro t2 ht2
    obtain ⟨t, ht, rfl⟩ := mem_update_enrollments.mp ht2
    by_cases hid : (t.id == r.tutorial_id) = true
    · rw [if_pos hid]; exact hI.likes_eq t ht
    · rw [if_neg hid]; exact hI.likes_eq t ht
  · -- comments counter untouched
    intro t2 ht2
    obtain ⟨t, ht, rfl⟩ := mem_update_enrollments.mp ht2
    by_cases hid : (t.id == r.tutorial_id) = true
    · rw [if_pos hid]; exact hI.comments_eq t ht
    · rw [if_neg hid]; exact hI.comments_eq t ht
  · -- enrollments counter tracks the appended row
    intro t2 ht2
    obtain ⟨t, ht, rfl⟩ := mem_update_enrollments.mp ht2
    show _ = (countEnrollments (st.enrollments ++ [r]) _ : Int)
    by_cases hid : (t.id == r.tutorial_id) = true
    · rw [if_pos hid]
      have hid2 : t.id = r.tutorial_id := by simpa using hid
      show t.enrollments_count + 1 = (countEnrollments (st.enrollments ++ [r]) t.id : Int)
      rw [countEnrollments_append, hI.enrollments_eq t ht,
        if_pos (show (r.tutorial_id == t.id) = true by simp [hid2])]
      push_cast
      ring
    · rw [if_neg hid]
      have hid2 : (r.tutorial_id == t.id) = false := by
        simp only [beq_eq_false_iff_ne, ne_eq]
        intro hh
        exact hid (by simp [hh])
      rw [countEnrollments_append, hid2]
      simpa using hI.enrollments_eq t ht
  · exact hI.likes_unique
  · -- the unique pair constraint still holds on the appended table
    intro tid uid
    show ((st.enrollments ++ [r]).filter
      (fun e => e.tutorial_id == tid && e.user_id == uid)).length ≤ 1
    rw [length_filter_append_single]
    by_cases hp : (r.tutorial_id == tid && r.user_id == uid) = true
    · have h1 : tid = r.tutorial_id ∧ uid = r.user_id := by
        simp only [Bool.and_eq_true, beq_iff_eq] at hp
        exact ⟨hp.1.symm, hp.2.symm⟩
      obtain ⟨rfl, rfl⟩ := h1
      rw [if_pos hp, List.filter_eq_nil_iff.mpr hnomatch]
      simp
    · rw [if_neg hp]
      simpa using hI.enrollments_unique tid uid
  · exact hI.comments_pk
  · intro l hl
    show ((update_tutorial_enrollments_count .insert r.tutorial_id st.tutorials).any
      (fun t => t.id == l.tutorial_id)) = true
    rw [any_id_update_enrollments]
    exact hI.likes_fk l hl
  · intro c hc
    show ((update_tutorial_enrollments_count .insert r.tutorial_id st.tutorials).any
      (fun t => t.id == c.tutorial_id)) = true
    rw [any_id_update_enrollments]
    exact hI.comments_fk c hc
  · intro e he
    show ((update_tutorial_enrollments_count .insert r.tutorial_id st.tutorials).any
      (fun t => t.id == e.tutorial_id)) = true
    rw [any_id_update_enrollments]
    rcases List.mem_append.mp he with h2 | h2
    · exact hI.enrollments_fk e h2
    · have : e = r := by simpa using h2
      subst this
      exact hfk

theorem inv_insertTutorial {st st2 : DB} {now id user_id : Nat}
    {title description : String} {category : TutorialCategory}
    {difficulty : DifficultyLevel} {thumbnail_url video_url : Option String}
    (hI : Inv st)
    (h : insertTutorial st now id user_id title description category difficulty
      thumbnail_url video_url = .ok st2) : Inv st2 := by
  obtain ⟨hst, hpk⟩ := insertTutorial_ok h
  subst hst
  have hfree : ∀ t ∈ st.tutorials, ¬ (t.id == id) = true := by
    intro t ht hcontra
    have hx : (st.tutorials.any (fun t => t.id == id)) = true :=
      List.any_eq_true.mpr ⟨t, ht, hcontra⟩
    rw [hpk] at hx
    cases hx
  -- a fresh tutorial id is referenced by no existing child row
  have hlikes0 : st.tutorial_likes.filter (fun l => l.tutorial_id == id) = [] := by
    rw [List.filter_eq_nil_iff]
    intro l hl hcontra
    have h1 : l.tutorial_id = id := by simpa using hcontra
    have h2 := hI.likes_fk l hl
    rw [h1, hpk] at h2
    cases h2
  have hcomments0 : st.tutorial_comments.filter (fun c => c.tutorial_id == id) = [] := by
    rw [List.filter_eq_nil_iff]
    intro c hc hcontra
    have h1 : c.tutorial_id = id := by simpa using hcontra
    have h2 := hI.comments_fk c hc
    rw [h1, hpk] at h2
    cases h2
  have henroll0 : st.enrollments.filter (fun e => e.tutorial_id == id) = [] := by
    rw [List.filter_eq_nil_iff]
    intro e he hcontra
    have h1 : e.tutorial_id = id := by simpa using hcontra
    have h2 := hI.enrollments_fk e he
    rw [h1, hpk] at h2
    cases h2
  constructor
  · intro t2 ht2
    rcases List.mem_append.mp ht2 with h2 | h2
    · exact hI.likes_eq t2 h2
    · have ht2eq := List.mem_singleton.mp h2
      subst ht2eq
      show (0 : Int) = (countLikes st.tutorial_likes id : Int)
      rw [countLikes, hlikes0]
      simp
  · intro t2 ht2
    rcases List.mem_append.mp ht2 with h2 | h2
    · exact hI.comments_eq t2 h2
    · have ht2eq := List.mem_singleton.mp h2
      subst ht2eq
      show (0 : Int) = (countComments st.tutorial_comments id : Int)
      rw [countComments, hcomments0]
      simp
  · intro t2 ht2
    rcases List.mem_append.mp ht2 with h2 | h2
    · exact hI.enrollments_eq t2 h2
    · have ht2eq := List.mem_singleton.mp h2
      subst ht2eq
      show (0 : Int) = (countEnrollments st.enrollments id : Int)
      rw [countEnrollments, henroll0]
      simp
  · exact hI.likes_unique
  · exact hI.enrollments_unique
  · exact hI.comments_pk
  · intro l hl
    show ((st.tutorials ++ [_]).any (fun t => t.id == l.tutorial_id)) = true
    rw [List.any_append, hI.likes_fk l hl]
    rfl
  · intro c hc
    show ((st.tutorials ++ [_]).any (fun t => t.id == c.tutorial_id)) = true
    rw [List.any_append, hI.comments_fk c hc]
    rfl
  · intro e he
    show ((st.tutorials ++ [_]).any (fun t => t.id == e.tutorial_id)) = true
    rw [List.any_append, hI.enrollments_fk e he]
    rfl

/-! ### Invariant preservation, delete operations -/

theorem deleteLike_of_none {st : DB} {tid uid : Nat}
    (hd : st.tutorial_likes.filter
      (fun l => l.tutorial_id == tid && l.user_id == uid) = []) :
    deleteLike st tid uid = st := by
  have hall := List.filter_eq_nil_iff.mp hd
  have h2 : st.tutorial_likes.filter
      (fun l => !(l.tutorial_id == tid && l.user_id == uid)) = st.tutorial_likes :=
    List.filter_eq_self.mpr (fun l hl => by simp [hall l hl])
  simp only [deleteLike, hd, h2, List.foldl_nil]

theorem deleteLike_of_one {st : DB} {tid uid : Nat} {l : TutorialLike}
    (hd : st.tutorial_likes.filter
      (fun x => x.tutorial_id == tid && x.user_id == uid) = [l]) :
    deleteLike st tid uid = { st with
      tutorial_likes := st.tutorial_likes.filter
        (fun x => !(x.tutorial_id == tid && x.user_id == uid))
      tutorials := update_tutorial_likes_count .delete l.tutorial_id st.tutorials } := by
  simp only [deleteLike, hd, List.foldl_cons, List.foldl_nil]

theorem inv_deleteLike {st : DB} (hI : Inv st) (tid uid : Nat) :
    Inv (deleteLike st tid uid) := by
  have hlen := hI.likes_unique tid uid
  cases hd : st.tutorial_likes.filter
      (fun l => l.tutorial_id == tid && l.user_id == uid) with
  | nil =>
    rw [deleteLike_of_none hd]
    exact hI
  | cons l rest =>
    have hrest : rest = [] := by
      rw [hd] at hlen
      cases rest with
      | nil => rfl
      | cons a b => simp at hlen
    subst hrest
    have hlmem : l ∈ st.tutorial_likes ∧
        (l.tutorial_id == tid && l.user_id == uid) = true :=
      List.mem_filter.mp (by rw [hd]; exact List.mem_singleton.mpr rfl)
    have hlpair : l.tutorial_id = tid ∧ l.user_id = uid := by
      have := hlmem.2
      simp only [Bool.and_eq_true, beq_iff_eq] at this
      exact this
    rw [deleteLike_of_one hd, hlpair.1]
    constructor
    · -- likes counter follows the deleted row
      intro t2 ht2
      obtain ⟨t, ht, rfl⟩ := mem_update_likes.mp ht2
      have hsplit := length_filter_split st.tutorial_likes
        (fun x => x.tutorial_id == t.id)
        (fun x => x.tutorial_id == tid && x.user_id == uid)
      rw [hd] at hsplit
      have hold := hI.likes_eq t ht
      by_cases hid : (t.id == tid) = true
      · rw [if_pos hid]
        have hid2 : t.id = tid := by simpa using hid
        have hpl : ([l].filter (fun x => x.tutorial_id == t.id)) = [l] := by
          simp [List.filter_cons, hlpair.1, hid2]
        rw [hpl] at hsplit
        show max (t.likes_count - 1) 0 =
          (countLikes (st.tutorial_likes.filter
            (fun x => !(x.tutorial_id == tid && x.user_id == uid))) t.id : Int)
        rw [countLikes] at hold ⊢
        rw [hold, hsplit]
        rw [List.length_cons, List.length_nil]
        push_cast
        rw [add_sub_cancel_left]
        exact max_eq_left (Int.natCast_nonneg _)
      · rw [if_neg hid]
        have hid2 : t.id ≠ tid := fun hh => hid (by simp [hh])
        have hpl : ([l].filter (fun x => x.tutorial_id == t.id)) = [] := by
          simp [List.filter_cons, hlpair.1]
          intro hh
          exact absurd hh.symm hid2
        rw [hpl] at hsplit
        show t.likes_count =
          (countLikes (st.tutorial_likes.filter
            (fun x => !(x.tutorial_id == tid && x.user_id == uid))) t.id : Int)
        rw [countLikes] at hold ⊢
        rw [hold, hsplit]
        simp
    · -- comments counter untouched
      intro t2 ht2
      obtain ⟨t, ht, rfl⟩ := mem_update_likes.mp ht2
      by_cases hid : (t.id == tid) = true
      · rw [if_pos hid]; exact hI.comments_eq t ht
      · rw [if_neg hid]; exact hI.comments_eq t ht
    · -- enrollments counter untouched
      intro t2 ht2
      obtain ⟨t, ht, rfl⟩ := mem_update_likes.mp ht2
      by_cases hid : (t.id == tid) = true
      · rw [if_pos hid]; exact hI.enrollments_eq t ht
      · rw [if_neg hid]; exact hI.enrollments_eq t ht
    · -- unique pairs survive removal
      intro tid2 uid2
      calc ((st.tutorial_likes.filter
            (fun x => !(x.tutorial_id == tid && x.user_id == uid))).filter
              (fun x => x.tutorial_id == tid2 && x.user_id == uid2)).length
          ≤ (st.tutorial_likes.filter
              (fun x => x.tutorial_id == tid2 && x.user_id == uid2)).length :=
            length_filter_filter_le _ _ _
        _ ≤ 1 := hI.likes_unique tid2 uid2
    · exact hI.enrollments_unique
    · exact hI.comments_pk
    · intro l2 hl2
      show ((update_tutorial_likes_count .delete tid st.tutorials).any
        (fun t => t.id == l2.tutorial_id)) = true
      rw [any_id_update_likes]
      exact hI.likes_fk l2 (List.mem_filter.mp hl2).1
    · intro c hc
      show ((update_tutorial_likes_count .delete tid st.tutorials).any
        (fun t => t.id == c.tutorial_id)) = true
      rw [any_id_update_likes]
      exact hI.comments_fk c hc
    · intro e he
      show ((update_tutorial_likes_count .delete tid st.tutorials).any
        (fun t => t.id == e.tutorial_id)) = true
      rw [any_id_update_likes]
      exact hI.enrollments_fk e he

theorem deleteEnrollment_of_none {st : DB} {tid uid : Nat}
    (hd : st.enrollments.filter
      (fun e => e.tutorial_id == tid && e.user_id == uid) = []) :
    deleteEnrollment st tid uid = st := by
  have hall := List.filter_eq_nil_iff.mp hd
  have h2 : st.enrollments.filter
      (fun e => !(e.tutorial_id == tid && e.user_id == uid)) = st.enrollments :=
    List.filter_eq_self.mpr (fun e he => by simp [hall e he])
  simp only [deleteEnrollment, hd, h2, List.foldl_nil]

theorem deleteEnrollment_of_one {st : DB} {tid uid : Nat} {e : Enrollment}
    (hd : st.enrollments.filter
      (fun x => x.tutorial_id == tid && x.user_id == uid) = [e]) :
    deleteEnrollment st tid uid = { st with
      enrollments := st.enrollments.filter
        (fun x => !(x.tutorial_id == tid && x.user_id == uid))
      tutorials := update_tutorial_enrollments_count .delete e.tutorial_id st.tutorials } := by
  simp only [deleteEnrollment, hd, List.foldl_cons, List.foldl_nil]

theorem inv_deleteEnrollment {st : DB} (hI : Inv st) (tid uid : Nat) :
    Inv (deleteEnrollment st tid uid) := by
  have hlen := hI.enrollments_unique tid uid
  cases hd : st.enrollments.filter
      (fun e => e.tutorial_id == tid && e.user_id == uid) with
  | nil =>
    rw [deleteEnrollment_of_none hd]
    exact hI
  | cons e rest =>
    have hrest : rest = [] := by
      rw [hd] at hlen
      cases rest with
      | nil => rfl
      | cons a b => simp at hlen
    subst hrest
    have hemem : e ∈ st.enrollments ∧
        (e.tutorial_id == tid && e.user_id == uid) = true :=
      List.mem_filter.mp (by rw [hd]; exact List.mem_singleton.mpr rfl)
    have hepair : e.tutorial_id = tid ∧ e.user_id = uid := by
      have := hemem.2
      simp only [Bool.and_eq_true, beq_iff_eq] at this
      exact this
    rw [deleteEnrollment_of_one hd, hepair.1]
    constructor
    · -- likes counter untouched
      intro t2 ht2
      obtain ⟨t, ht, rfl⟩ := mem_update_enrollments.mp ht2
      by_cases hid : (t.id == tid) = true
      · rw [if_pos hid]; exact hI.likes_eq t ht
      · rw [if_neg hid]; exact hI.likes_eq t ht
    · -- comments counter untouched
      intro t2 ht2
      obtain ⟨t, ht, rfl⟩ := mem_update_enrollments.mp ht2
      by_cases hid : (t.id == tid) = true
      · rw [if_pos hid]; exact hI.comments_eq t ht
      · rw [if_neg hid]; exact hI.comments_eq t ht
    · -- enrollments counter follows the deleted row
      intro t2 ht2
      obtain ⟨t, ht, rfl⟩ := mem_update_enrollments.mp ht2
      have hsplit := length_filter_split st.enrollments
        (fun x => x.tutorial_id == t.id)
        (fun x => x.tutorial_id == tid && x.user_id == uid)
      rw [hd] at hsplit
      have hold := hI.enrollments_eq t ht
      by_cases hid : (t.id == tid) = true
      · rw [if_pos hid]
        have hid2 : t.id = tid := by simpa using hid
        have hpe : ([e].filter (fun x => x.tutorial_id == t.id)) = [e] := by
          simp [List.filter_cons, hepair.1, hid2]
        rw [hpe] at hsplit
        show max (t.enrollments_count - 1) 0 =
          (countEnrollments (st.enrollments.filter
            (fun x => !(x.tutorial_id == tid && x.user_id == uid))) t.id : Int)
        rw [countEnrollments] at hold ⊢
        rw [hold, hsplit]
        rw [List.length_cons, List.length_nil]
        push_cast
        rw [add_sub_cancel_left]
        exact max_eq_left (Int.natCast_nonneg _)
      · rw [if_neg hid]
        have hid2 : t.id ≠ tid := fun hh => hid (by simp [hh])
        have hpe : ([e].filter (fun x => x.tutorial_id == t.id)) = [] := by
          simp [List.filter_cons, hepair.1]
          intro hh
          exact absurd hh.symm hid2
        rw [hpe] at hsplit
        show t.enrollments_count =
          (countEnrollments (st.enrollments.filter
            (fun x => !(x.tutorial_id == tid && x.user_id == uid))) t.id : Int)
        rw [countEnrollments] at hold ⊢
        rw [hold, hsplit]
        simp
    · exact hI.likes_unique
    · -- unique pairs survive removal
      intro tid2 uid2
      calc ((st.enrollments.filter
            (fun x => !(x.tutorial_id == tid && x.user_id == uid))).filter
              (fun x => x.tutorial_id == tid2 && x.user_id == uid2)).length
          ≤ (st.enrollments.filter
              (fun x => x.tutorial_id == tid2 && x.user_id == uid2)).length :=
            length_filter_filter_le _ _ _
        _ ≤ 1 := hI.enrollments_unique tid2 uid2
    · exact hI.comments_pk
    · intro l hl
      show ((update_tutorial_enrollments_count .delete tid st.tutorials).any
        (fun t => t.id == l.tutorial_id)) = true
      rw [any_id_update_enrollments]
      exact hI.likes_fk l hl
    · intro c hc
      show ((update_tutorial_enrollments_count .delete tid st.tutorials).any
        (fun t => t.id == c.tutorial_id)) = true
      rw [any_id_update_enrollments]
      exact hI.comments_fk c hc
    · intro e2 he2
      show ((update_tutorial_enrollments_count .delete tid st.tutorials).any
        (fun t => t.id == e2.tutorial_id)) = true
      rw [any_id_update_enrollments]
      exact hI.enrollments_fk e2 (List.mem_filter.mp he2).1

theorem deleteComment_of_none {st : DB} {cid : Nat}
    (hd : st.tutorial_comments.filter (fun c => c.id == cid) = []) :
    deleteComment st cid = st := by
  have hall := List.filter_eq_nil_iff.mp hd
  have h2 : st.tutorial_comments.filter (fun c => !(c.id == cid)) =
      st.tutorial_comments :=
    List.filter_eq_self.mpr (fun c hc => by simp [hall c hc])
  simp only [deleteComment, hd, h2, List.foldl_nil]

theorem deleteComment_of_one {st : DB} {cid : Nat} {c : TutorialComment}
    (hd : st.tutorial_comments.filter (fun x => x.id == cid) = [c]) :
    deleteComment st cid = { st with
      tutorial_comments := st.tutorial_comments.filter (fun x => !(x.id == cid))
      tutorials := update_tutorial_comments_count .delete c.tutorial_id st.tutorials } := by
  simp only [deleteComment, hd, List.foldl_cons, List.foldl_nil]

theorem inv_deleteComment {st : DB} (hI : Inv st) (cid : Nat) :
    Inv (deleteComment st cid) := by
  have hlen := hI.comments_pk cid
  cases hd : st.tutorial_comments.filter (fun c => c.id == cid) with
  | nil =>
    rw [deleteComment_of_none hd]
    exact hI
  | cons c rest =>
    have hrest : rest = [] := by
      rw [hd] at hlen
      cases rest with
      | nil => rfl
      | cons a b => simp at hlen
    subst hrest
    have hcmem : c ∈ st.tutorial_comments ∧ (c.id == cid) = true :=
      List.mem_filter.mp (by rw [hd]; exact List.mem_singleton.mpr rfl)
    rw [deleteComment_of_one hd]
    constructor
    · -- likes counter untouched
      intro t2 ht2
      obtain ⟨t, ht, rfl⟩ := mem_update_comments.mp ht2
      by_cases hid : (t.id == c.tutorial_id) = true
      · rw [if_pos hid]; exact hI.likes_eq t ht
      · rw [if_neg hid]; exact hI.likes_eq t ht
    · -- comments counter follows the deleted row
      intro t2 ht2
      obtain ⟨t, ht, rfl⟩ := mem_update_comments.mp ht2
      have hsplit := length_filter_split st.tutorial_comments
        (fun x => x.tutorial_id == t.id) (fun x => x.id == cid)
      rw [hd] at hsplit
      have hold := hI.comments_eq t ht
      by_cases hid : (t.id == c.tutorial_id) = true
      · rw [if_pos hid]
        have hid2 : t.id = c.tutorial_id := by simpa using hid
        have hpc : ([c].filter (fun x => x.tutorial_id == t.id)) = [c] := by
          simp [List.filter_cons, hid2]
        rw [hpc] at hsplit
        show max (t.comments_count - 1) 0 =
          (countComments (st.tutorial_comments.filter (fun x => !(x.id == cid))) t.id : Int)
        rw [countComments] at hold ⊢
        rw [hold, hsplit]
        rw [List.length_cons, List.length_nil]
        push_cast
        rw [add_sub_cancel_left]
        exact max_eq_left (Int.natCast_nonneg _)
      · rw [if_neg hid]
        have hid2 : t.id ≠ c.tutorial_id := fun hh => hid (by simp [hh])
        have hpc : ([c].filter (fun x => x.tutorial_id == t.id)) = [] := by
          simp [List.filter_cons]
          intro hh
          exact absurd hh.symm hid2
        rw [hpc] at hsplit
        show t.comments_count =
          (countComments (st.tutorial_comments.filter (fun x => !(x.id == cid))) t.id : Int)
        rw [countComments] at hold ⊢
        rw [hold, hsplit]
        simp
    · -- enrollments counter untouched
      intro t2 ht2
      obtain ⟨t, ht, rfl⟩ := mem_update_comments.mp ht2
      by_cases hid : (t.id == c.tutorial_id) = true
      · rw [if_pos hid]; exact hI.enrollments_eq t ht
      · rw [if_neg hid]; exact hI.enrollments_eq t ht
    · exact hI.likes_unique
    · exact hI.enrollments_unique
    · -- comment ids survive removal
      intro cid2
      calc ((st.tutorial_comments.filter (fun x => !(x.id == cid))).filter
              (fun x => x.id == cid2)).length
          ≤ (st.tutorial_comments.filter (fun x => x.id == cid2)).length :=
            length_filter_filter_le _ _ _
        _ ≤ 1 := hI.comments_pk cid2
    · intro l hl
      show ((update_tutorial_comments_count .delete c.tutorial_id st.tutorials).any
        (fun t => t.id == l.tutorial_id)) = true
      rw [any_id_update_comments]
      exact hI.likes_fk l hl
    · intro c2 hc2
      show ((update_tutorial_comments_count .delete c.tutorial_id st.tutorials).any
        (fun t => t.id == c2.tutorial_id)) = true
      rw [any_id_update_comments]
      exact hI.comments_fk c2 (List.mem_filter.mp hc2).1
    · intro e he
      show ((update_tutorial_comments_count .delete c.tutorial_id st.tutorials).any
        (fun t => t.id == e.tutorial_id)) = true
      rw [any_id_update_comments]
      exact hI.enrollments_fk e he

/-- A fold of counter-trigger firings whose target tutorial row is gone
leaves the tutorials table unchanged. -/
theorem foldl_update_eq_self {β : Type} (del : List β) (tidOf : β → Nat) (tid : Nat)
    (g : Nat → List Tutorial → List Tutorial)
    (hg : ∀ ts2 : List Tutorial, (∀ t ∈ ts2, (t.id == tid) = false) → g tid ts2 = ts2)
    (hdel : ∀ b ∈ del, tidOf b = tid)
    (ts : List Tutorial) (hts : ∀ t ∈ ts, (t.id == tid) = false) :
    del.foldl (fun acc b => g (tidOf b) acc) ts = ts := by
  induction del with
  | nil => rfl
  | cons a d ih =>
    rw [List.foldl_cons, hdel a (List.mem_cons_self a d), hg ts hts]
    exact ih (fun b hb => hdel b (List.mem_cons_of_mem a hb))

theorem deleteTutorial_eq {st : DB} {tid : Nat}
    (hex : (st.tutorials.any (fun t => t.id == tid)) = true) :
    deleteTutorial st tid = { st with
      tutorials := st.tutorials.filter (fun t => !(t.id == tid))
      tutorial_likes := st.tutorial_likes.filter (fun l => !(l.tutorial_id == tid))
      tutorial_comments := st.tutorial_comments.filter (fun c => !(c.tutorial_id == tid))
      enrollments := st.enrollments.filter (fun e => !(e.tutorial_id == tid)) } := by
  have hts0 : ∀ t ∈ st.tutorials.filter (fun t => !(t.id == tid)),
      (t.id == tid) = false := by
    intro t ht
    simpa using (List.mem_filter.mp ht).2
  have h1 : (st.tutorial_likes.filter (fun l => l.tutorial_id == tid)).foldl
      (fun acc l => update_tutorial_likes_count .delete l.tutorial_id acc)
      (st.tutorials.filter (fun t => !(t.id == tid))) =
      st.tutorials.filter (fun t => !(t.id == tid)) :=
    foldl_update_eq_self _ (fun l : TutorialLike => l.tutorial_id) tid
      (update_tutorial_likes_count .delete)
      (fun ts2 h => update_likes_eq_self h)
      (fun l hl => by simpa using (List.mem_filter.mp hl).2) _ hts0
  have h2 : (st.tutorial_comments.filter (fun c => c.tutorial_id == tid)).foldl
      (fun acc c => update_tutorial_comments_count .delete c.tutorial_id acc)
      (st.tutorials.filter (fun t => !(t.id == tid))) =
      st.tutorials.filter (fun t => !(t.id == tid)) :=
    foldl_update_eq_self _ (fun c : TutorialComment => c.tutorial_id) tid
      (update_tutorial_comments_count .delete)
      (fun ts2 h => update_comments_eq_self h)
      (fun c hc => by simpa using (List.mem_filter.mp hc).2) _ hts0
  have h3 : (st.enrollments.filter (fun e => e.tutorial_id == tid)).foldl
      (fun acc e => update_tutorial_enrollments_count .delete e.tutorial_id acc)
      (st.tutorials.filter (fun t => !(t.id == tid))) =
      st.tutorials.filter (fun t => !(t.id == tid)) :=
    foldl_update_eq_self _ (fun e : Enrollment => e.tutorial_id) tid
      (update_tutorial_enrollments_count .delete)
      (fun ts2 h => update_enrollments_eq_self h)
      (fun e he => by simpa using (List.mem_filter.mp he).2) _ hts0
  simp only [deleteTutorial, hex, if_true, h1, h2, h3]

theorem inv_deleteTutorial {st : DB} (hI : Inv st) (tid : Nat) :
    Inv (deleteTutorial st tid) := by
  cases hex : (st.tutorials.any (fun t => t.id == tid)) with
  | false =>
    have : deleteTutorial st tid = st := by
      simp only [deleteTutorial, hex]
      rfl
    rw [this]
    exact hI
  | true =>
    rw [deleteTutorial_eq hex]
    constructor
    · -- likes counters of the surviving tutorials are unchanged
      intro t ht
      have hmem := List.mem_filter.mp ht
      have hid : t.id ≠ tid := by simpa using hmem.2
      have hsplit := length_filter_split st.tutorial_likes
        (fun x => x.tutorial_id == t.id) (fun x => x.tutorial_id == tid)
      have hnil : ((st.tutorial_likes.filter (fun x => x.tutorial_id == tid)).filter
          (fun x => x.tutorial_id == t.id)) = [] := by
        rw [List.filter_eq_nil_iff]
        intro x hx hcontra
        have h1 : x.tutorial_id = tid := by
          simpa using (List.mem_filter.mp hx).2
        have h2 : x.tutorial_id = t.id := by simpa using hcontra
        exact hid (h2 ▸ h1)
      rw [hnil] at hsplit
      simp only [List.length_nil, Nat.zero_add] at hsplit
      show t.likes_count =
        (countLikes (st.tutorial_likes.filter (fun l => !(l.tutorial_id == tid))) t.id : Int)
      rw [countLikes, ← hsplit]
      simpa [countLikes] using hI.likes_eq t hmem.1
    · -- comments counters of the surviving tutorials are unchanged
      intro t ht
      have hmem := List.mem_filter.mp ht
      have hid : t.id ≠ tid := by simpa using hmem.2
      have hsplit := length_filter_split st.tutorial_comments
        (fun x => x.tutorial_id == t.id) (fun x => x.tutorial_id == tid)
      have hnil : ((st.tutorial_comments.filter (fun x => x.tutorial_id == tid)).filter
          (fun x => x.tutorial_id == t.id)) = [] := by
        rw [List.filter_eq_nil_iff]
        intro x hx hcontra
        have h1 : x.tutorial_id = tid := by
          simpa using (List.mem_filter.mp hx).2
        have h2 : x.tutorial_id = t.id := by simpa using hcontra
        exact hid (h2 ▸ h1)
      rw [hnil] at hsplit
      simp only [List.length_nil, Nat.zero_add] at hsplit
      show t.comments_count =
        (countComments (st.tutorial_comments.filter (fun c => !(c.tutorial_id == tid))) t.id : Int)
      rw [countComments, ← hsplit]
      simpa [countComments] using hI.comments_eq t hmem.1
    · -- enrollments counters of the surviving tutorials are unchanged
      intro t ht
      have hmem := List.mem_filter.mp ht
      have hid : t.id ≠ tid := by simpa using hmem.2
      have hsplit := length_filter_split st.enrollments
        (fun x => x.tutorial_id == t.id) (fun x => x.tutorial_id == tid)
      have hnil : ((st.enrollments.filter (fun x => x.tutorial_id == tid)).filter
          (fun x => x.tutorial_id == t.id)) = [] := by
        rw [List.filter_eq_nil_iff]
        intro x hx hcontra
        have h1 : x.tutorial_id = tid := by
          simpa using (List.mem_filter.mp hx).2
        have h2 : x.tutorial_id = t.id := by simpa using hcontra
        exact hid (h2 ▸ h1)
      rw [hnil] at hsplit
      simp only [List.length_nil, Nat.zero_add] at hsplit
      show t.enrollments_count =
        (countEnrollments (st.enrollments.filter (fun e => !(e.tutorial_id == tid))) t.id : Int)
      rw [countEnrollments, ← hsplit]
      simpa [countEnrollments] using hI.enrollments_eq t hmem.1
    · intro tid2 uid2
      calc ((st.tutorial_likes.filter (fun l => !(l.tutorial_id == tid))).filter
              (fun x => x.tutorial_id == tid2 && x.user_id == uid2)).length
          ≤ (st.tutorial_likes.filter
              (fun x => x.tutorial_id == tid2 && x.user_id == uid2)).length :=
            length_filter_filter_le _ _ _
        _ ≤ 1 := hI.likes_unique tid2 uid2
    · intro tid2 uid2
      calc ((st.enrollments.filter (fun e => !(e.tutorial_id == tid))).filter
              (fun x => x.tutorial_id == tid2 && x.user_id == uid2)).length
          ≤ (st.enrollments.filter
              (fun x => x.tutorial_id == tid2 && x.user_id == uid2)).length :=
            length_filter_filter_le _ _ _
        _ ≤ 1 := hI.enrollments_unique tid2 uid2
    · intro cid
      calc ((st.tutorial_comments.filter (fun c => !(c.tutorial_id == tid))).filter
              (fun x => x.id == cid)).length
          ≤ (st.tutorial_comments.filter (fun x => x.id == cid)).length :=
            length_filter_filter_le _ _ _
        _ ≤ 1 := hI.comments_pk cid
    · -- surviving likes still reference surviving tutorials
      intro l hl
      have hmem := List.mem_filter.mp hl
      have hne : l.tutorial_id ≠ tid := by simpa using hmem.2
      obtain ⟨t, ht, htid⟩ := List.any_eq_true.mp (hI.likes_fk l hmem.1)
      have htid2 : t.id = l.tutorial_id := by simpa using htid
      exact List.any_eq_true.mpr ⟨t, List.mem_filter.mpr
        ⟨ht, by simp [htid2, hne]⟩, htid⟩
    · intro c hc
      have hmem := List.mem_filter.mp hc
      have hne : c.tutorial_id ≠ tid := by simpa using hmem.2
      obtain ⟨t, ht, htid⟩ := List.any_eq_true.mp (hI.comments_fk c hmem.1)
      have htid2 : t.id = c.tutorial_id := by simpa using htid
      exact List.any_eq_true.mpr ⟨t, List.mem_filter.mpr
        ⟨ht, by simp [htid2, hne]⟩, htid⟩
    · intro e he
      have hmem := List.mem_filter.mp he
      have hne : e.tutorial_id ≠ tid := by simpa using hmem.2
      obtain ⟨t, ht, htid⟩ := List.any_eq_true.mp (hI.enrollments_fk e hmem.1)
      have htid2 : t.id = e.tutorial_id := by simpa using htid
      exact List.any_eq_true.mpr ⟨t, List.mem_filter.mpr
        ⟨ht, by simp [htid2, hne]⟩, htid⟩

/-! ### The invariant holds in every reachable state -/

theorem inv_applyEvent {st : DB} (hI : Inv st) (e : Event) :
    Inv (applyEvent st e) := by
  cases e with
  | signup now id m =>
    cases h : signup st now id m with
    | ok st2 =>
      have he : applyEvent st (.signup now id m) = st2 := by
        simp [applyEvent, okOr, h]
      rw [he]
      exact inv_signup hI h
    | error msg =>
      have he : applyEvent st (.signup now id m) = st := by
        simp [applyEvent, okOr, h]
      rw [he]
      exact hI
  | newTutorial now id uid ti de ca di th vi =>
    cases h : insertTutorial st now id uid ti de ca di th vi with
    | ok st2 =>
      have he : applyEvent st (.newTutorial now id uid ti de ca di th vi) = st2 := by
        simp [applyEvent, okOr, h]
      rw [he]
      exact inv_insertTutorial hI h
    | error msg =>
      have he : applyEvent st (.newTutorial now id uid ti de ca di th vi) = st := by
        simp [applyEvent, okOr, h]
      rw [he]
      exact hI
  | dropTutorial tid => exact inv_deleteTutorial hI tid
  | likeRow r =>
    cases h : insertLike st r with
    | ok st2 =>
      have he : applyEvent st (.likeRow r) = st2 := by
        simp [applyEvent, okOr, h]
      rw [he]
      exact inv_insertLike hI h
    | error msg =>
      have he : applyEvent st (.likeRow r) = st := by
        simp [applyEvent, okOr, h]
      rw [he]
      exact hI
  | unlike tid uid => exact inv_deleteLike hI tid uid
  | commentRow r =>
    cases h : insertComment st r with
    | ok st2 =>
      have he : applyEvent st (.commentRow r) = st2 := by
        simp [applyEvent, okOr, h]
      rw [he]
      exact inv_insertComment hI h
    | error msg =>
      have he : applyEvent st (.commentRow r) = st := by
        simp [applyEvent, okOr, h]
      rw [he]
      exact hI
  | dropComment cid => exact inv_deleteComment hI cid
  | enrollRow r =>
    cases h : insertEnrollment st r with
    | ok st2 =>
      have he : applyEvent st (.enrollRow r) = st2 := by
        simp [applyEvent, okOr, h]
      rw [he]
      exact inv_insertEnrollment hI h
    | error msg =>
      have he : applyEvent st (.enrollRow r) = st := by
        simp [applyEvent, okOr, h]
      rw [he]
      exact hI
  | unenroll tid uid => exact inv_deleteEnrollment hI tid uid

theorem inv_applyEvents {st : DB} (hI : Inv st) (es : List Event) :
    Inv (applyEvents st es) := by
  induction es generalizing st with
  | nil => exact hI
  | cons e es ih => exact ih (inv_applyEvent hI e)

theorem inv_runEvents (es : List Event) : Inv (runEvents es) :=
  inv_applyEvents inv_emptyDB es

/-- A like insert whose (tutorial_id, user_id) pair is already present is
rejected by the unique constraint (or, if even the id collides, by the
primary key); either way the statement errors. -/
theorem insertLike_error_of_pair {st : DB} {r : TutorialLike}
    (h : (st.tutorial_likes.any
      (fun l => l.tutorial_id == r.tutorial_id && l.user_id == r.user_id)) = true) :
    ∃ msg, insertLike st r = .error msg := by
  rw [insertLike, if_pos h]
  split
  · exact ⟨_, rfl⟩
  · exact ⟨_, rfl⟩

theorem insertEnrollment_error_of_pair {st : DB} {r : Enrollment}
    (h : (st.enrollments.any
      (fun e => e.tutorial_id == r.tutorial_id && e.user_id == r.user_id)) = true) :
    ∃ msg, insertEnrollment st r = .error msg := by
  rw [insertEnrollment, if_pos h]
  split
  · exact ⟨_, rfl⟩
  · exact ⟨_, rfl⟩

/-- C1: in every state reachable by the defined operations (account
creation, tutorial creation and deletion, and inserting or deleting
like, comment and enrollment rows, with the counter triggers firing on
each), every tutorial's likes_count equals the number of live
tutorial_likes rows referencing it, its comments_count equals the number
of live tutorial_comments rows referencing it, and its enrollments_count
equals the number of live enrollments rows referencing it. -/
theorem counters_match_live_child_rows (es : List Event) :
    countersConsistent (runEvents es) = true := by
  have hI := inv_runEvents es
  rw [countersConsistent, List.all_eq_true]
  intro t ht
  rw [Bool.and_eq_true, Bool.and_eq_true]
  refine ⟨⟨?_, ?_⟩, ?_⟩ <;> rw [beq_iff_eq]
  · exact hI.likes_eq t ht
  · exact hI.comments_eq t ht
  · exact hI.enrollments_eq t ht

/-- C3: starting from any reachable state, after any further sequence of
events (in particular any sequence of delete events, including repeated
delete attempts on a pair whose child row is already absent), every
counter of every tutorial is nonnegative. -/
theorem counters_never_negative (es more : List Event) :
    countersNonneg (applyEvents (runEvents es) more) = true := by
  have hI := inv_applyEvents (inv_runEvents es) more
  rw [countersNonneg, List.all_eq_true]
  intro t ht
  rw [Bool.and_eq_true, Bool.and_eq_true]
  refine ⟨⟨?_, ?_⟩, ?_⟩ <;> rw [decide_eq_true_eq]
  · rw [hI.likes_eq t ht]
    exact Int.natCast_nonneg _
  · rw [hI.comments_eq t ht]
    exact Int.natCast_nonneg _
  · rw [hI.enrollments_eq t ht]
    exact Int.natCast_nonneg _

/-- C5: in any reachable state, after deleting tutorial tid no like,
comment or enrollment row referencing tid remains (the ON DELETE CASCADE
clauses leave no orphans; if the tutorial does not exist, no child row
referenced it in the first place by the foreign keys). -/
theorem delete_tutorial_no_orphans (es : List Event) (tid : Nat) :
    noChildRows (deleteTutorial (runEvents es) tid) tid = true := by
  have hI := inv_runEvents es
  cases hex : ((runEvents es).tutorials.any (fun t => t.id == tid)) with
  | true =>
    rw [deleteTutorial_eq hex, noChildRows]
    rw [Bool.and_eq_true, Bool.and_eq_true]
    refine ⟨⟨?_, ?_⟩, ?_⟩ <;> rw [List.all_eq_true] <;> intro x hx
    · exact (List.mem_filter.mp hx).2
    · exact (List.mem_filter.mp hx).2
    · exact (List.mem_filter.mp hx).2
  | false =>
    have hid : deleteTutorial (runEvents es) tid = runEvents es := by
      simp only [deleteTutorial, hex]
      rfl
    rw [hid, noChildRows]
    rw [Bool.and_eq_true, Bool.and_eq_true]
    refine ⟨⟨?_, ?_⟩, ?_⟩ <;> rw [List.all_eq_true] <;> intro x hx
    · by_cases hc : (x.tutorial_id == tid) = true
      · have h1 : x.tutorial_id = tid := by simpa using hc
        have h2 := hI.likes_fk x hx
        rw [h1, hex] at h2
        cases h2
      · simpa using hc
    · by_cases hc : (x.tutorial_id == tid) = true
      · have h1 : x.tutorial_id = tid := by simpa using hc
        have h2 := hI.comments_fk x hx
        rw [h1, hex] at h2
        cases h2
      · simpa using hc
    · by_cases hc : (x.tutorial_id == tid) = true
      · have h1 : x.tutorial_id = tid := by simpa using hc
        have h2 := hI.enrollments_fk x hx
        rw [h1, hex] at h2
        cases h2
      · simpa using hc

/-- C4: in any reachable state, at most one tutorial_likes row and at
most one enrollments row carry any given (tutorial, user) pair, and an
insert attempt for an already-present pair returns an error and leaves
the database (child table and counters) unchanged. -/
theorem duplicate_like_enroll_rejected (es : List Event)
    (r : TutorialLike) (r2 : Enrollment) :
    ((runEvents es).tutorial_likes.filter
      (fun l => l.tutorial_id == r.tutorial_id && l.user_id == r.user_id)).length ≤ 1 ∧
    ((runEvents es).enrollments.filter
      (fun e => e.tutorial_id == r2.tutorial_id && e.user_id == r2.user_id)).length ≤ 1 ∧
    (((runEvents es).tutorial_likes.any
        (fun l => l.tutorial_id == r.tutorial_id && l.user_id == r.user_id)) = true →
      (∃ msg, insertLike (runEvents es) r = .error msg) ∧
      okOr (runEvents es) (insertLike (runEvents es) r) = runEvents es) ∧
    (((runEvents es).enrollments.any
        (fun e => e.tutorial_id == r2.tutorial_id && e.user_id == r2.user_id)) = true →
      (∃ msg, insertEnrollment (runEvents es) r2 = .error msg) ∧
      okOr (runEvents es) (insertEnrollment (runEvents es) r2) = runEvents es) := by
  have hI := inv_runEvents es
  refine ⟨hI.likes_unique r.tutorial_id r.user_id,
    hI.enrollments_unique r2.tutorial_id r2.user_id, ?_, ?_⟩
  · intro hdup
    obtain ⟨msg, hmsg⟩ := insertLike_error_of_pair hdup
    exact ⟨⟨msg, hmsg⟩, by rw [hmsg]; rfl⟩
  · intro hdup
    obtain ⟨msg, hmsg⟩ := insertEnrollment_error_of_pair hdup
    exact ⟨⟨msg, hmsg⟩, by rw [hmsg]; rfl⟩

/-- C2: the counter step is the same for all three child tables
(each trigger is counterTrigger applied to its counter field, stepping
with counterStep): a successful insert of a child row referencing
tutorial t increments the matching counter of t by exactly one and
leaves non-matching tutorials unchanged, and deleting the child row
carrying a given key sets the matching counter to
GREATEST(counter - 1, 0) and leaves non-matching tutorials unchanged. -/
theorem child_event_counter_step (st : DB) (t : Tutorial) :
    (∀ (r : TutorialLike) (st2 : DB), insertLike st r = .ok st2 →
      t ∈ st.tutorials →
      (t.id = r.tutorial_id →
        { t with likes_count := t.likes_count + 1 } ∈ st2.tutorials) ∧
      (t.id ≠ r.tutorial_id → t ∈ st2.tutorials)) ∧
    (∀ (tid uid : Nat) (l : TutorialLike),
      st.tutorial_likes.filter
        (fun x => x.tutorial_id == tid && x.user_id == uid) = [l] →
      t ∈ st.tutorials →
      (t.id = tid → { t with likes_count := max (t.likes_count - 1) 0 }
        ∈ (deleteLike st tid uid).tutorials) ∧
      (t.id ≠ tid → t ∈ (deleteLike st tid uid).tutorials)) ∧
    (∀ (r : TutorialComment) (st2 : DB), insertComment st r = .ok st2 →
      t ∈ st.tutorials →
      (t.id = r.tutorial_id →
        { t with comments_count := t.comments_count + 1 } ∈ st2.tutorials) ∧
      (t.id ≠ r.tutorial_id → t ∈ st2.tutorials)) ∧
    (∀ (cid : Nat) (c : TutorialComment),
      st.tutorial_comments.filter (fun x => x.id == cid) = [c] →
      t ∈ st.tutorials →
      (t.id = c.tutorial_id →
        { t with comments_count := max (t.comments_count - 1) 0 }
          ∈ (deleteComment st cid).tutorials) ∧
      (t.id ≠ c.tutorial_id → t ∈ (deleteComment st cid).tutorials)) ∧
    (∀ (r : Enrollment) (st2 : DB), insertEnrollment st r = .ok st2 →
      t ∈ st.tutorials →
      (t.id = r.tutorial_id →
        { t with enrollments_count := t.enrollments_count + 1 } ∈ st2.tutorials) ∧
      (t.id ≠ r.tutorial_id → t ∈ st2.tutorials)) ∧
    (∀ (tid uid : Nat) (e : Enrollment),
      st.enrollments.filter
        (fun x => x.tutorial_id == tid && x.user_id == uid) = [e] →
      t ∈ st.tutorials →
      (t.id = tid → { t with enrollments_count := max (t.enrollments_count - 1) 0 }
        ∈ (deleteEnrollment st tid uid).tutorials) ∧
      (t.id ≠ tid → t ∈ (deleteEnrollment st tid uid).tutorials)) := by
  refine ⟨?_, ?_, ?_, ?_, ?_, ?_⟩
  · intro r st2 h ht
    obtain ⟨hst, -, -⟩ := insertLike_ok h
    subst hst
    constructor
    · intro hid
      exact mem_update_likes.mpr ⟨t, ht,
        by rw [if_pos (show (t.id == r.tutorial_id) = true by simp [hid])]; rfl⟩
    · intro hne
      exact mem_update_likes.mpr ⟨t, ht,
        by rw [if_neg (show ¬ (t.id == r.tutorial_id) = true by simp [hne])]⟩
  · intro tid uid l hl ht
    have hlpair : l.tutorial_id = tid := by
      have hlmem := List.mem_filter.mp
        (show l ∈ st.tutorial_likes.filter
          (fun x => x.tutorial_id == tid && x.user_id == uid) by
          rw [hl]; exact List.mem_singleton.mpr rfl)
      have := hlmem.2
      simp only [Bool.and_eq_true, beq_iff_eq] at this
      exact this.1
    rw [deleteLike_of_one hl, hlpair]
    constructor
    · intro hid
      exact mem_update_likes.mpr ⟨t, ht,
        by rw [if_pos (show (t.id == tid) = true by simp [hid])]; rfl⟩
    · intro hne
      exact mem_update_likes.mpr ⟨t, ht,
        by rw [if_neg (show ¬ (t.id == tid) = true by simp [hne])]⟩
  · intro r st2 h ht
    obtain ⟨hst, -, -⟩ := insertComment_ok h
    subst hst
    constructor
    · intro hid
      exact mem_update_comments.mpr ⟨t, ht,
        by rw [if_pos (show (t.id == r.tutorial_id) = true by simp [hid])]; rfl⟩
    · intro hne
      exact mem_update_comments.mpr ⟨t, ht,
        by rw [if_neg (show ¬ (t.id == r.tutorial_id) = true by simp [hne])]⟩
  · intro cid c hc ht
    rw [deleteComment_of_one hc]
    constructor
    · intro hid
      exact mem_update_comments.mpr ⟨t, ht,
        by rw [if_pos (show (t.id == c.tutorial_id) = true by simp [hid])]; rfl⟩
    · intro hne
      exact mem_update_comments.mpr ⟨t, ht,
        by rw [if_neg (show ¬ (t.id == c.tutorial_id) = true by simp [hne])]⟩
  · intro r st2 h ht
    obtain ⟨hst, -, -⟩ := insertEnrollment_ok h
    subst hst
    constructor
    · intro hid
      exact mem_update_enrollments.mpr ⟨t, ht,
        by rw [if_pos (show (t.id == r.tutorial_id) = true by simp [hid])]; rfl⟩
    · intro hne
      exact mem_update_enrollments.mpr ⟨t, ht,
        by rw [if_neg (show ¬ (t.id == r.tutorial_id) = true by simp [hne])]⟩
  · intro tid uid e he ht
    have hepair : e.tutorial_id = tid := by
      have hemem := List.mem_filter.mp
        (show e ∈ st.enrollments.filter
          (fun x => x.tutorial_id == tid && x.user_id == uid) by
          rw [he]; exact List.mem_singleton.mpr rfl)
      have := hemem.2
      simp only [Bool.and_eq_true, beq_iff_eq] at this
      exact this.1
    rw [deleteEnrollment_of_one he, hepair]
    constructor
    · intro hid
      exact mem_update_enrollments.mpr ⟨t, ht,
        by rw [if_pos (show (t.id == tid) = true by simp [hid])]; rfl⟩
    · intro hne
      exact mem_update_enrollments.mpr ⟨t, ht,
        by rw [if_neg (show ¬ (t.id == tid) = true by simp [hne])]⟩

/-! ### Concrete scenario fixtures -/

def tutorialW : Tutorial :=
  { id := 10, user_id := 1, title := "Lean basics", description := "An introduction"
    category := .programming, difficulty := .beginner
    thumbnail_url := none, video_url := none
    likes_count := 1, comments_count := 1, enrollments_count := 1
    created_at := 0, updated_at := 0 }

def tutorialW2 : Tutorial :=
  { id := 11, user_id := 1, title := "More Lean", description := "A sequel"
    category := .design, difficulty := .advanced
    thumbnail_url := none, video_url := none
    likes_count := 0, comments_count := 0, enrollments_count := 0
    created_at := 0, updated_at := 0 }

def likeW : TutorialLike := { id := 20, tutorial_id := 10, user_id := 2, created_at := 0 }

def commentW : TutorialComment :=
  { id := 30, tutorial_id := 10, user_id := 2, content := "Nice", created_at := 0 }

def enrollW : Enrollment := { id := 40, tutorial_id := 10, user_id := 2, enrolled_at := 0 }

def dbW : DB :=
  { profiles := [handle_new_user 0 1 (some "Alice"), handle_new_user 0 2 none]
    tutorials := [tutorialW, tutorialW2]
    tutorial_likes := [likeW]
    tutorial_comments := [commentW]
    enrollments := [enrollW] }

def rLikeW : TutorialLike := { id := 21, tutorial_id := 10, user_id := 1, created_at := 1 }

def rCommentW : TutorialComment :=
  { id := 31, tutorial_id := 10, user_id := 1, content := "Thanks", created_at := 1 }

def rEnrollW : Enrollment := { id := 41, tutorial_id := 10, user_id := 1, enrolled_at := 1 }

/-- Witness for C2 on the concrete fixture database. -/
theorem child_event_counter_step_witness :
    ({ tutorialW with likes_count := tutorialW.likes_count + 1 }
      ∈ (okOr dbW (insertLike dbW rLikeW)).tutorials) ∧
    (tutorialW2 ∈ (okOr dbW (insertLike dbW rLikeW)).tutorials) ∧
    ({ tutorialW with likes_count := max (tutorialW.likes_count - 1) 0 }
      ∈ (deleteLike dbW 10 2).tutorials) ∧
    (tutorialW2 ∈ (deleteLike dbW 10 2).tutorials) ∧
    ({ tutorialW with comments_count := tutorialW.comments_count + 1 }
      ∈ (okOr dbW (insertComment dbW rCommentW)).tutorials) ∧
    ({ tutorialW with comments_count := max (tutorialW.comments_count - 1) 0 }
      ∈ (deleteComment dbW 30).tutorials) ∧
    ({ tutorialW with enrollments_count := tutorialW.enrollments_count + 1 }
      ∈ (okOr dbW (insertEnrollment dbW rEnrollW)).tutorials) ∧
    ({ tutorialW with enrollments_count := max (tutorialW.enrollments_count - 1) 0 }
      ∈ (deleteEnrollment dbW 10 2).tutorials) := by
  have h1 := child_event_counter_step dbW tutorialW
  have h2 := child_event_counter_step dbW tutorialW2
  refine ⟨?_, ?_, ?_, ?_, ?_, ?_, ?_, ?_⟩
  · exact (h1.1 rLikeW _ rfl (by simp [dbW])).1 (by decide)
  · exact (h2.1 rLikeW _ rfl (by simp [dbW])).2 (by decide)
  · exact (h1.2.1 10 2 likeW (by decide) (by simp [dbW])).1 (by decide)
  · exact (h2.2.1 10 2 likeW (by decide) (by simp [dbW])).2 (by decide)
  · exact (h1.2.2.1 rCommentW _ rfl (by simp [dbW])).1 (by decide)
  · exact (h1.2.2.2.1 30 commentW (by decide) (by simp [dbW])).1 (by decide)
  · exact (h1.2.2.2.2.1 rEnrollW _ rfl (by simp [dbW])).1 (by decide)
  · exact (h1.2.2.2.2.2 10 2 enrollW (by decide) (by simp [dbW])).1 (by decide)

def evsC4 : List Event :=
  [ .signup 0 1 (some "Alice"), .signup 0 2 none,
    .newTutorial 1 10 1 "Lean basics" "An introduction" .programming .beginner none none,
    .likeRow { id := 21, tutorial_id := 10, user_id := 2, created_at := 2 },
    .enrollRow { id := 41, tutorial_id := 10, user_id := 2, enrolled_at := 3 } ]

def rLikeC4 : TutorialLike := { id := 22, tutorial_id := 10, user_id := 2, created_at := 4 }

def rEnrollC4 : Enrollment := { id := 42, tutorial_id := 10, user_id := 2, enrolled_at := 5 }

/-- Witness for C4: a second like and a second enrollment for an
already-present pair error out and leave the state unchanged. -/
theorem duplicate_like_enroll_rejected_witness :
    ((∃ msg, insertLike (runEvents evsC4) rLikeC4 = .error msg) ∧
      okOr (runEvents evsC4) (insertLike (runEvents evsC4) rLikeC4) = runEvents evsC4) ∧
    ((∃ msg, insertEnrollment (runEvents evsC4) rEnrollC4 = .error msg) ∧
      okOr (runEvents evsC4) (insertEnrollment (runEvents evsC4) rEnrollC4) = runEvents evsC4) := by
  have h := duplicate_like_enroll_rejected evsC4 rLikeC4 rEnrollC4
  exact ⟨h.2.2.1 (by decide), h.2.2.2 (by decide)⟩

/-! ### Row-level-security and storage policies -/

/-- RLS policy "Users can insert own profile" on public.profiles:
WITH CHECK (auth.uid() = id).  auth.uid() is NULL on an anonymous
request, and a NULL comparison never satisfies the check. -/
def profileInsertPolicy (uid : Option Nat) (profile_id : Nat) : Bool :=
  match uid with
  | some u => u == profile_id
  | none => false

/-- storage.foldername(name): every path segment of the object name
except the last.  An object name is modelled as its list of
slash-separated segments. -/
def foldername (name : List String) : List String := name.dropLast

/-- Storage policy "Tutorial media is publicly accessible": SELECT is
allowed whenever the object lives in the tutorial-media bucket. -/
def storageSelectAllowed (bucket_id : String) : Bool :=
  bucket_id == "tutorial-media"

/-- Storage policy "Authenticated users can upload tutorial media":
the INSERT check tests only the bucket and auth.role(); the caller
identity and the object name are not constrained. -/
def storageInsertAllowed (_uid : Option String) (role : String)
    (bucket_id : String) (_name : List String) : Bool :=
  bucket_id == "tutorial-media" && role == "authenticated"

/-- Storage policy "Users can update their own tutorial media": USING
tests the bucket and auth.uid()::text = (storage.foldername(name))[1];
a NULL uid or a missing first segment fails the comparison. -/
def storageUpdateAllowed (uid : Option String) (bucket_id : String)
    (name : List String) : Bool :=
  bucket_id == "tutorial-media" &&
    (match uid, (foldername name).head? with
     | some u, some s => u == s
     | _, _ => false)

/-- Storage policy "Users can delete their own tutorial media": same
USING clause as the update policy. -/
def storageDeleteAllowed (uid : Option String) (bucket_id : String)
    (name : List String) : Bool :=
  bucket_id == "tutorial-media" &&
    (match uid, (foldername name).head? with
     | some u, some s => u == s
     | _, _ => false)

/-- C6 counterexample: a caller authenticated as identity 7 passes the
profiles INSERT policy for a profile row with id 7, so direct client
inserts of profile rows are not rejected for every caller. -/
theorem profile_direct_insert_allowed_for_self :
    profileInsertPolicy (some 7) 7 = true := rfl

/-- C6 (amended): a direct client insert of a profiles row with id p is
permitted exactly when the caller is authenticated as p; anonymous
callers and callers with a different identity are rejected. -/
theorem profile_insert_iff_self (uid : Option Nat) (p : Nat) :
    profileInsertPolicy uid p = true ↔ uid = some p := by
  cases uid with
  | none => simp [profileInsertPolicy]
  | some u => simp [profileInsertPolicy]

/-- C7 counterexample: an authenticated caller whose identity is alice
passes the INSERT policy for an object whose first path segment is bob,
so the write policies are not uniformly "caller equals first segment". -/
theorem storage_insert_ignores_path_segment :
    storageInsertAllowed (some "alice") "authenticated" "tutorial-media"
      ["bob", "pic.png"] = true ∧
    (foldername ["bob", "pic.png"]).head? = some "bob" ∧
    ("alice" : String) ≠ "bob" := by
  refine ⟨rfl, rfl, ?_⟩
  decide

/-- C7 (amended): reads of the tutorial-media bucket are public; update
and delete are permitted exactly when the caller's textual identity
equals the first folder segment of the object name; insert requires only
an authenticated role and does not constrain the path. -/
theorem storage_policy_characterization (uid : Option String) (role : String)
    (name : List String) :
    (storageSelectAllowed "tutorial-media" = true) ∧
    (storageInsertAllowed uid role "tutorial-media" name = true ↔
      role = "authenticated") ∧
    (storageUpdateAllowed uid "tutorial-media" name = true ↔
      ∃ s, (foldername name).head? = some s ∧ uid = some s) ∧
    (storageDeleteAllowed uid "tutorial-media" name = true ↔
      ∃ s, (foldername name).head? = some s ∧ uid = some s) := by
  refine ⟨rfl, ?_, ?_, ?_⟩
  · simp [storageInsertAllowed]
  · cases uid with
    | none => cases h : (foldername name).head? <;>
        simp [storageUpdateAllowed, h]
    | some u => cases h : (foldername name).head? <;>
        simp [storageUpdateAllowed, h]
  · cases uid with
    | none => cases h : (foldername name).head? <;>
        simp [storageDeleteAllowed, h]
    | some u => cases h : (foldername name).head? <;>
        simp [storageDeleteAllowed, h]

/-! ### Signup trigger -/

/-- C8: creating a new identity-provider account with a fresh id i
inserts exactly one profiles row with id i; its full_name is the
provided display-name metadata when present and the constant
"New User" otherwise, and bio and avatar_url are both NULL. -/
theorem signup_creates_single_profile (st : DB) (now i : Nat) (m : Option String)
    (h : (st.profiles.any (fun p => p.id == i)) = false) :
    ∃ st2, signup st now i m = .ok st2 ∧
      st2.profiles.length = st.profiles.length + 1 ∧
      st2.profiles.filter (fun p => p.id == i) =
        [{ id := i, full_name := m.getD "New User", bio := none,
           avatar_url := none, created_at := now, updated_at := now }] := by
  have hok : signup st now i m =
      .ok { st with profiles := st.profiles ++ [handle_new_user now i m] } := by
    rw [signup, if_neg (show ¬ (st.profiles.any (fun p => p.id == i)) = true by
      simp [h])]
  refine ⟨_, hok, by simp, ?_⟩
  show (st.profiles ++ [handle_new_user now i m]).filter (fun p => p.id == i) = _
  rw [List.filter_append]
  have h0 : st.profiles.filter (fun p => p.id == i) = [] := by
    rw [List.filter_eq_nil_iff]
    intro p hp hc
    have hx : (st.profiles.any (fun p => p.id == i)) = true :=
      List.any_eq_true.mpr ⟨p, hp, hc⟩
    rw [h] at hx
    cases hx
  rw [h0]
  simp [handle_new_user]

/-- Witness for C8 at a concrete fresh account. -/
theorem signup_creates_single_profile_witness :
    ∃ st2, signup emptyDB 5 1 (some "Alice") = .ok st2 ∧
      st2.profiles.length = emptyDB.profiles.length + 1 ∧
      st2.profiles.filter (fun p => p.id == 1) =
        [{ id := 1, full_name := "Alice", bio := none, avatar_url := none,
           created_at := 5, updated_at := 5 }] :=
  signup_creates_single_profile emptyDB 5 1 (some "Alice") (by decide)

/-! ### Timestamp trigger -/

/-- public.update_updated_at_column fired BEFORE UPDATE on
public.profiles: NEW.updated_at is overwritten with NOW(); the row
otherwise keeps the caller-supplied NEW values. -/
def update_updated_at_column_profile (now : Nat) (new_row : Profile) : Profile :=
  { new_row with updated_at := now }

/-- public.update_updated_at_column fired BEFORE UPDATE on
public.tutorials. -/
def update_updated_at_column_tutorial (now : Nat) (new_row : Tutorial) : Tutorial :=
  { new_row with updated_at := now }

/-- UPDATE on public.profiles WHERE id = pid: the caller-supplied patch
produces NEW for each matched row, then the update_profiles_updated_at
trigger rewrites NEW.updated_at before the row is stored. -/
def updateProfile (st : DB) (now pid : Nat) (patch : Profile → Profile) : DB :=
  { st with profiles :=
      st.profiles.map (fun p =>
        if p.id == pid then update_updated_at_column_profile now (patch p) else p) }

/-- UPDATE on public.tutorials WHERE id = tid, with the
update_tutorials_updated_at trigger. -/
def updateTutorial (st : DB) (now tid : Nat) (patch : Tutorial → Tutorial) : DB :=
  { st with tutorials :=
      st.tutorials.map (fun t =>
        if t.id == tid then update_updated_at_column_tutorial now (patch t) else t) }

/-- Executable membership check on rows. -/
def rowElem {α : Type} [DecidableEq α] (a : α) (l : List α) : Bool :=
  l.any (fun b => b = a)

/-- C9: the trigger output always has updated_at = now, whatever value
the caller-supplied NEW row carries; consequently after any UPDATE on
profiles or tutorials, every stored row is either an untouched original
row or carries updated_at = now. -/
theorem updated_at_always_now (st : DB) (now pid tid : Nat)
    (fp : Profile → Profile) (ft : Tutorial → Tutorial) :
    (∀ p : Profile, (update_updated_at_column_profile now p).updated_at = now) ∧
    (∀ t : Tutorial, (update_updated_at_column_tutorial now t).updated_at = now) ∧
    ((updateProfile st now pid fp).profiles.all
      (fun p => rowElem p st.profiles || p.updated_at == now)) = true ∧
    ((updateTutorial st now tid ft).tutorials.all
      (fun t => rowElem t st.tutorials || t.updated_at == now)) = true := by
  refine ⟨fun _ => rfl, fun _ => rfl, ?_, ?_⟩
  · rw [List.all_eq_true]
    intro p hp
    have hp2 : p ∈ st.profiles.map (fun q =>
        if q.id == pid then update_updated_at_column_profile now (fp q) else q) := hp
    obtain ⟨q, hq, rfl⟩ := List.mem_map.mp hp2
    by_cases hid : (q.id == pid) = true
    · rw [if_pos hid]
      simp [update_updated_at_column_profile]
    · rw [if_neg hid]
      have : rowElem q st.profiles = true :=
        List.any_eq_true.mpr ⟨q, hq, by simp⟩
      rw [this]
      rfl
  · rw [List.all_eq_true]
    intro t ht
    have ht2 : t ∈ st.tutorials.map (fun q =>
        if q.id == tid then update_updated_at_column_tutorial now (ft q) else q) := ht
    obtain ⟨q, hq, rfl⟩ := List.mem_map.mp ht2
    by_cases hid : (q.id == tid) = true
    · rw [if_pos hid]
      simp [update_updated_at_column_tutorial]
    · rw [if_neg hid]
      have : rowElem q st.tutorials = true :=
        List.any_eq_true.mpr ⟨q, hq, by simp⟩
      rw [this]
      rfl

/-! ### Client-side validation of the CreateTutorial form -/

inductive SubmitOutcome where
  | validationError | uploadAborted | inserted
deriving DecidableEq, Repr, BEq

/-- zod tutorialSchema of the CreateTutorial form: title 5 to 200
characters, description 20 to 2000 characters, category and difficulty
nonempty. -/
def tutorialSchemaCheck (title description category difficulty : String) : Bool :=
  decide (5 ≤ title.length) && decide (title.length ≤ 200) &&
  decide (20 ≤ description.length) && decide (description.length ≤ 2000) &&
  decide (1 ≤ category.length) && decide (1 ≤ difficulty.length)

/-- handleThumbnailChange: a chosen file strictly larger than
5 * 1024 * 1024 bytes produces an error toast and leaves the selected
thumbnail state unchanged; otherwise the file becomes the selection.
Files are modelled by their byte size. -/
def handleThumbnailChange (fileSize : Nat) (thumbnailFile : Option Nat) : Option Nat :=
  if fileSize > 5 * 1024 * 1024 then thumbnailFile else some fileSize

/-- handleSubmit of the CreateTutorial form: tutorialSchema.parse throws
on invalid data before any upload or insert call; with a selected
thumbnail a failed upload aborts before the insert; otherwise the
tutorials insert is attempted. -/
def handleSubmit (title description category difficulty : String)
    (thumbnailFile : Option Nat) (uploadSucceeds : Bool) : SubmitOutcome :=
  if tutorialSchemaCheck title description category difficulty then
    match thumbnailFile with
    | some _ => if uploadSucceeds then .inserted else .uploadAborted
    | none => .inserted
  else .validationError

/-- C10: a title shorter than 5 or longer than 200 characters, a
description shorter than 20 or longer than 2000 characters, or an
unselected (empty) category or difficulty makes handleSubmit stop with a
validation error before attempting the insert; and a selected thumbnail
larger than 5 * 1024 * 1024 bytes is rejected before any upload, leaving
the selection unchanged. -/
theorem create_tutorial_client_validation
    (title description category difficulty : String)
    (thumbnailFile : Option Nat) (uploadSucceeds : Bool) :
    (title.length < 5 ∨ 200 < title.length ∨ description.length < 20 ∨
      2000 < description.length ∨ category = "" ∨ difficulty = "" →
      handleSubmit title description category difficulty thumbnailFile
        uploadSucceeds = .validationError) ∧
    (∀ (fileSize : Nat) (current : Option Nat), 5 * 1024 * 1024 < fileSize →
      handleThumbnailChange fileSize current = current) := by
  constructor
  · intro hbad
    have hc : tutorialSchemaCheck title description category difficulty = false := by
      cases hcheck : tutorialSchemaCheck title description category difficulty with
      | false => rfl
      | true =>
        exfalso
        rw [tutorialSchemaCheck] at hcheck
        simp only [Bool.and_eq_true, decide_eq_true_eq] at hcheck
        obtain ⟨⟨⟨⟨⟨h1, h2⟩, h3⟩, h4⟩, h5⟩, h6⟩ := hcheck
        rcases hbad with h | h | h | h | h | h
        · omega
        · omega
        · omega
        · omega
        · rw [h] at h5
          simp at h5
        · rw [h] at h6
          simp at h6
    rw [handleSubmit.eq_def, hc]
    rfl
  · intro fileSize current hbig
    rw [handleThumbnailChange, if_pos hbig]

/-- Witness for C10: an unselected category aborts the submission, and
an oversized thumbnail is not selected. -/
theorem create_tutorial_client_validation_witness :
    handleSubmit "Hi" "short" "" "" none true = .validationError ∧
    handleThumbnailChange (5 * 1024 * 1024 + 1) none = none := by
  have h := create_tutorial_client_validation "Hi" "short" "" "" none true
  exact ⟨h.1 (Or.inr (Or.inr (Or.inr (Or.inr (Or.inl rfl))))),
    h.2 (5 * 1024 * 1024 + 1) none (by omega)⟩

end SkillSharing
